import Mathlib

/-!
# DynamoDB adapters of the timedb storage core (`dynamodb.go`)

A shallow embedding of `DynamoDBRepository` (bucket tier) and `DynamoDBCache`
(cache tier): key construction, the comparisons handed to the backend scan,
the per-bucket reader construction and the emission loops of both `Query`
methods, followed by theorems about them.

Conventions of the embedding

* Go strings are `String`; `[]byte` is `List Byte` with `Byte := Fin 256`.
* `time.Time` is an instant in nanoseconds since the Unix epoch, `time.Duration`
  a number of nanoseconds.
* Channels are modelled by the list of values sent on them, in sending order;
  the relative order of the two channels is not recorded.
* Library routines (`fmt`, `strconv`, `encoding/base64`, `uuid`, the DynamoDB
  table) are modelled by executable definitions of their documented behaviour.
* `float64` values are an abstract type with the three operations the code uses.
-/

namespace Timedb

/-! ## Errors -/

/-- The error values that can travel through the adapters. -/
inductive Error where
  /-- a failure reported by the backend table (I/O, protocol) -/
  | backend (msg : String)
  /-- `base64.CorruptInputError` (the byte offset is not recorded) -/
  | corruptInput
  /-- `strconv.NumError` with `ErrSyntax` for the given input -/
  | numSyntax (input : String)
  /-- `strconv.NumError` with `ErrRange` for the given input -/
  | numRange (input : String)
  /-- `io.EOF`, the end-of-data signal of a reader -/
  | eof
  /-- any other failure of a bucket decoder -/
  | decode (msg : String)
  deriving DecidableEq, Repr

/-- Equality of results is decidable, so that concrete runs can be evaluated. -/
instance instDecidableEqExcept {ε α : Type} [DecidableEq ε] [DecidableEq α] :
    DecidableEq (Except ε α)
  | .ok a, .ok b => if h : a = b then isTrue (by rw [h]) else isFalse (by simpa using h)
  | .error a, .error b => if h : a = b then isTrue (by rw [h]) else isFalse (by simpa using h)
  | .ok _, .error _ => isFalse (by simp)
  | .error _, .ok _ => isFalse (by simp)

/-! ## Decimal formatting and parsing (`fmt` with `%d`, `strconv.ParseInt`) -/

/-- The character of one decimal digit. -/
def digitChar (d : Nat) : Char := Char.ofNat (48 + d)

/-- Decimal digits of `n`, most significant first; `fuel` bounds the recursion. -/
def natDigits : Nat → Nat → List Char
  | 0, _ => []
  | fuel + 1, n =>
    if n < 10 then [digitChar n] else natDigits fuel (n / 10) ++ [digitChar (n % 10)]

/-- Decimal text of a natural number. -/
def formatNat (n : Nat) : List Char := natDigits (n + 1) n

/-- Text printed by `fmt.Sprintf("%d", n)` (and by `%v` on an integer). -/
def formatInt (n : Int) : String :=
  match n with
  | Int.ofNat m => String.mk (formatNat m)
  | Int.negSucc m => String.mk ('-' :: formatNat (m + 1))

/-- Value of a decimal digit character, if it is one. -/
def digitVal (c : Char) : Option Nat :=
  if 48 ≤ c.toNat ∧ c.toNat ≤ 57 then some (c.toNat - 48) else none

/-- Accumulating left-to-right reading of a run of decimal digits. -/
def parseDigitsAux : Nat → List Char → Option Nat
  | acc, [] => some acc
  | acc, c :: cs =>
    match digitVal c with
    | none => none
    | some d => parseDigitsAux (acc * 10 + d) cs

/-- Reads a non-empty run of decimal digits. -/
def parseDigits : List Char → Option Nat
  | [] => none
  | cs => parseDigitsAux 0 cs

/-- Reads an optionally signed decimal integer of any size. -/
def parseDecimal (s : String) : Option Int :=
  match s.data with
  | '+' :: cs => (parseDigits cs).map Int.ofNat
  | '-' :: cs => (parseDigits cs).map (fun v => - Int.ofNat v)
  | cs => (parseDigits cs).map Int.ofNat

/-- Whether an integer fits `int64`. -/
def inInt64 (n : Int) : Prop := -(2 ^ 63) ≤ n ∧ n < 2 ^ 63

instance (n : Int) : Decidable (inInt64 n) := by
  unfold inInt64; infer_instance

/-- Model of `strconv.ParseInt(s, 10, 64)`. -/
def ParseInt (s : String) : Except Error Int :=
  match parseDecimal s with
  | none => .error (.numSyntax s)
  | some n => if inInt64 n then .ok n else .error (.numRange s)

/-! ## Bytes, base64 (`encoding/base64`, `StdEncoding`) -/

/-- One byte. -/
abbrev Byte := Fin 256

/-- The character of a 6-bit value in the standard base64 alphabet. -/
def b64Char (n : Nat) : Char :=
  if n < 26 then Char.ofNat (65 + n)
  else if n < 52 then Char.ofNat (97 + (n - 26))
  else if n < 62 then Char.ofNat (48 + (n - 52))
  else if n = 62 then '+' else '/'

/-- The 6-bit value of a character of the standard base64 alphabet. -/
def b64Val (c : Char) : Option Nat :=
  if 65 ≤ c.toNat ∧ c.toNat ≤ 90 then some (c.toNat - 65)
  else if 97 ≤ c.toNat ∧ c.toNat ≤ 122 then some (c.toNat - 97 + 26)
  else if 48 ≤ c.toNat ∧ c.toNat ≤ 57 then some (c.toNat - 48 + 52)
  else if c = '+' then some 62
  else if c = '/' then some 63
  else none

/-- The byte with the given value, reduced modulo 256. -/
def byteOf (n : Nat) : Byte := ⟨n % 256, Nat.mod_lt n (by decide)⟩

/-- Padded base64 text of a byte sequence, three bytes per four characters. -/
def base64Chars : List Byte → List Char
  | [] => []
  | [a] => [b64Char (a.val / 4), b64Char (a.val % 4 * 16), '=', '=']
  | [a, b] =>
    [b64Char (a.val / 4), b64Char (a.val % 4 * 16 + b.val / 16), b64Char (b.val % 16 * 4), '=']
  | a :: b :: c :: rest =>
    b64Char (a.val / 4) :: b64Char (a.val % 4 * 16 + b.val / 16) ::
      b64Char (b.val % 16 * 4 + c.val / 64) :: b64Char (c.val % 64) :: base64Chars rest

/-- Model of `base64.StdEncoding.EncodeToString`. -/
def EncodeToString (data : List Byte) : String := String.mk (base64Chars data)

/-- Decodes padded base64 text, four characters at a time; padding may only
close the text. Bits of the last character that do not fill a byte are dropped. -/
def base64Quanta : List Char → Option (List Byte)
  | [] => some []
  | c0 :: c1 :: c2 :: c3 :: rest =>
    match b64Val c0, b64Val c1 with
    | some v0, some v1 =>
      if c2 = '=' then
        if c3 = '=' ∧ rest = [] then some [byteOf (v0 * 4 + v1 / 16)] else none
      else
        match b64Val c2 with
        | none => none
        | some v2 =>
          if c3 = '=' then
            if rest = [] then
              some [byteOf (v0 * 4 + v1 / 16), byteOf (v1 % 16 * 16 + v2 / 4)]
            else none
          else
            match b64Val c3 with
            | none => none
            | some v3 =>
              (base64Quanta rest).map fun tl =>
                byteOf (v0 * 4 + v1 / 16) :: byteOf (v1 % 16 * 16 + v2 / 4) ::
                  byteOf (v2 % 4 * 64 + v3) :: tl
    | _, _ => none
  | _ => none

/-- Model of `base64.StdEncoding.DecodeString`: carriage returns and line feeds
are skipped, anything else that is not padded base64 is a `CorruptInputError`. -/
def DecodeString (s : String) : Except Error (List Byte) :=
  match base64Quanta (s.data.filter fun c => c ≠ '\r' ∧ c ≠ '\n') with
  | some bs => .ok bs
  | none => .error .corruptInput

/-! ## Series identifiers (`uuid.UUID`) -/

/-- A `uuid.UUID`: a byte slice, valid when it holds 16 bytes. -/
structure UUID where
  /-- the underlying bytes -/
  bytes : List Byte
  deriving DecidableEq, Repr

/-- One lower-case hexadecimal digit. -/
def hexChar (n : Nat) : Char :=
  if n < 10 then Char.ofNat (48 + n) else Char.ofNat (87 + n)

/-- Lower-case hexadecimal text of a byte sequence, as printed by `%x`. -/
def hexBytes : List Byte → List Char
  | [] => []
  | b :: bs => hexChar (b.val / 16) :: hexChar (b.val % 16) :: hexBytes bs

/-- Model of `uuid.UUID.String`: the empty string unless the slice has 16 bytes,
else the form `xxxxxxxx-xxxx-xxxx-xxxx-xxxxxxxxxxxx`. -/
def UUID.String (u : UUID) : String :=
  if u.bytes.length ≠ 16 then ""
  else
    String.mk (hexBytes (u.bytes.take 4) ++ ('-' :: (hexBytes ((u.bytes.drop 4).take 2) ++
      ('-' :: (hexBytes ((u.bytes.drop 6).take 2) ++ ('-' :: (hexBytes ((u.bytes.drop 8).take 2) ++
      ('-' :: hexBytes (u.bytes.drop 10)))))))))

/-! ## Instants and durations (`time`) -/

/-- A `time.Time`, as nanoseconds since the Unix epoch. -/
structure Time where
  /-- nanoseconds since January 1, 1970 UTC -/
  unixNano : Int
  deriving DecidableEq, Repr

/-- Model of `Time.Unix`: whole seconds since the epoch, rounded down. -/
def Time.Unix (t : Time) : Int := t.unixNano / 1000000000

/-- Model of `time.Unix(sec, 0)`. -/
def timeUnix (sec : Int) : Time := ⟨sec * 1000000000⟩

/-- A `time.Duration`, in nanoseconds. -/
structure Duration where
  /-- the number of nanoseconds -/
  ns : Int
  deriving DecidableEq, Repr

/-- Model of `int64(d.Seconds())`: the duration in seconds with the fraction cut
off (towards zero). `Seconds` goes through `float64`; for durations shorter than
`2^24` seconds the sum `sec + nsec/1e9` it forms cannot round up to the next
integer, so the conversion back to `int64` yields exactly this quotient. Longer
durations are outside the model. -/
def Duration.wholeSeconds (d : Duration) : Int := Int.tdiv d.ns 1000000000

/-! ## The DynamoDB table (`goamz/dynamodb`) -/

/-- A `dynamodb.Attribute`: a typed, named value held as text. -/
structure Attribute where
  /-- the `Type` field: `"S"`, `"N"` or `"B"` -/
  AttrType : String
  /-- the `Name` field -/
  Name : String
  /-- the `Value` field -/
  Value : String
  deriving DecidableEq, Repr

/-- The constant `dynamodb.TYPE_STRING`. -/
def TYPE_STRING : String := "S"
/-- The constant `dynamodb.TYPE_NUMBER`. -/
def TYPE_NUMBER : String := "N"
/-- The constant `dynamodb.TYPE_BINARY`. -/
def TYPE_BINARY : String := "B"
/-- The constant `dynamodb.COMPARISON_EQUAL`. -/
def COMPARISON_EQUAL : String := "EQ"
/-- The constant `dynamodb.COMPARISON_GREATER_THAN_OR_EQUAL`. -/
def COMPARISON_GREATER_THAN_OR_EQUAL : String := "GE"
/-- The constant `dynamodb.COMPARISON_LESS_THAN`. -/
def COMPARISON_LESS_THAN : String := "LT"
/-- The constant `dynamodb.COMPARISON_LESS_THAN_OR_EQUAL`. -/
def COMPARISON_LESS_THAN_OR_EQUAL : String := "LE"

/-- A `dynamodb.AttributeComparison`. -/
structure AttributeComparison where
  /-- the attribute the condition is on -/
  AttributeName : String
  /-- the operator -/
  ComparisonOperator : String
  /-- the operands -/
  AttributeValueList : List Attribute
  deriving DecidableEq, Repr

/-- Model of `dynamodb.NewEqualStringAttributeComparison`. -/
def NewEqualStringAttributeComparison (name value : String) : AttributeComparison :=
  ⟨name, COMPARISON_EQUAL, [⟨TYPE_STRING, name, value⟩]⟩

/-- Model of `dynamodb.NewNumericAttributeComparison`; the operand travels as
decimal text. -/
def NewNumericAttributeComparison (name op : String) (value : Int) : AttributeComparison :=
  ⟨name, op, [⟨TYPE_NUMBER, name, formatInt value⟩]⟩

/-- A stored item, `map[string]*dynamodb.Attribute`, as an association list; the
order of the list stands for the order in which a `range` loop visits the map. -/
abbrev Item := List (String × Attribute)

/-- How the backend evaluates one condition on one item: the item must carry
the attribute with the operand's type; `EQ` compares the texts, the order
operators compare the integers the two texts denote. -/
def AttributeComparison.holds (c : AttributeComparison) (item : Item) : Bool :=
  match item.lookup c.AttributeName, c.AttributeValueList with
  | some a, [v] =>
    if a.AttrType ≠ v.AttrType then false
    else if c.ComparisonOperator = COMPARISON_EQUAL then decide (a.Value = v.Value)
    else
      match parseDecimal a.Value, parseDecimal v.Value with
      | some x, some y =>
        if c.ComparisonOperator = COMPARISON_GREATER_THAN_OR_EQUAL then decide (y ≤ x)
        else if c.ComparisonOperator = COMPARISON_LESS_THAN then decide (x < y)
        else if c.ComparisonOperator = COMPARISON_LESS_THAN_OR_EQUAL then decide (x ≤ y)
        else false
      | _, _ => false
  | _, _ => false

/-- The state of a `dynamodb.Table` whose primary key is the string attribute
`series` (hash key) and the numeric attribute `time` (range key), the names the
comparisons of both `Query` methods and `entryReader` rely on. `fault` is the
failure the backend currently answers every request with, if any. -/
structure Table where
  /-- the stored items -/
  items : List Item
  /-- the failure the backend answers with, if any -/
  fault : Option Error
  deriving DecidableEq, Repr

/-- The item `PutItem` stores: the two key attributes, then the given ones. -/
def Table.newItem (hashKey rangeKey : String) (attributes : List Attribute) : Item :=
  ("series", ⟨TYPE_STRING, "series", hashKey⟩) :: ("time", ⟨TYPE_NUMBER, "time", rangeKey⟩) ::
    attributes.map fun a => (a.Name, a)

/-- Whether an item has the given primary key. -/
def Table.hasKey (hashKey rangeKey : String) (item : Item) : Bool :=
  (item.lookup "series").map (·.Value) == some hashKey &&
    (item.lookup "time").map (·.Value) == some rangeKey

/-- Model of `Table.PutItem`: on a failing backend nothing is stored and the
failure is returned; otherwise the item replaces any item with the same key. -/
def Table.PutItem (t : Table) (hashKey rangeKey : String) (attributes : List Attribute) :
    Table × Option Error :=
  match t.fault with
  | some e => (t, some e)
  | none =>
    (⟨t.items.filter (fun it => !Table.hasKey hashKey rangeKey it) ++
        [Table.newItem hashKey rangeKey attributes], none⟩, none)

/-- Model of `Table.Query`: on a failing backend the failure, otherwise the
stored items on which every condition holds, in storage order. -/
def Table.Query (t : Table) (comparisons : List AttributeComparison) :
    Except Error (List Item) :=
  match t.fault with
  | some e => .error e
  | none => .ok (t.items.filter fun it => comparisons.all fun c => c.holds it)

/-! ## Entries and readers -/

/-- The three operations on `float64` the adapters use. -/
structure Float64Ops (F : Type) where
  /-- the zero value of `float64` -/
  zero : F
  /-- text printed by `fmt.Sprintf("%v", x)` -/
  format : F → String
  /-- model of `strconv.ParseFloat(s, 64)` -/
  ParseFloat : String → Except Error F

/-- The zero `time.Time` (January 1 of year 1), as every unset timestamp is. -/
def Time.zero : Time := ⟨-62135596800 * 1000000000⟩

/-- An `Entry`: a timestamp and a map from attribute name to value. -/
structure Entry (F : Type) where
  /-- the `Timestamp` field -/
  Timestamp : Time
  /-- the `Attributes` field, a map as an association list -/
  Attributes : List (String × F)
  deriving DecidableEq, Repr

/-- Assignment `m[k] = v` on a map held as an association list. -/
def mapSet {β : Type} : List (String × β) → String → β → List (String × β)
  | [], k, v => [(k, v)]
  | (k0, v0) :: m, k, v => if k0 = k then (k, v) :: m else (k0, v0) :: mapSet m k v

/-- An `EncodedBucketAttribute`: an attribute name and its encoded column. -/
structure EncodedBucketAttribute where
  /-- the `Name` field -/
  Name : String
  /-- the `Data` field -/
  Data : List Byte
  deriving DecidableEq, Repr

/-- What `bucket.NewBucketDecoder(start, bytes.NewBuffer(data))` is built from. -/
structure BucketDecoder where
  /-- the anchor of the column in unix seconds -/
  start : Int
  /-- the encoded column -/
  data : List Byte
  deriving DecidableEq, Repr

/-- What one call of `ReadEntries` returns: the filled slots `buf[:n]` and the
error. -/
structure ReadResult (F : Type) where
  /-- the slots the call filled, `buf[:n]` -/
  entries : List (Entry F)
  /-- the error of the call, `none` for `nil` -/
  err : Option Error

/-- An `EntryReader` in use by `Query`: the result of its `k`-th call of
`ReadEntries` on the one-slot buffer, for every `k`. -/
abbrev EntryReader (F : Type) := Nat → ReadResult F

/-- The signature of `bucketEntryReader(series, multiplier, decs, attributes)`,
which the repository takes from the bucket store. -/
abbrev ReaderMaker (F : Type) :=
  UUID → F → List (String × BucketDecoder) → List String → EntryReader F

/-- How a step that may dereference a missing map entry ends. -/
inductive Built (α : Type) where
  /-- the step produced a value -/
  | ok (a : α)
  /-- the step returned an error -/
  | failed (e : Error)
  /-- the step dereferenced the nil pointer a missing map key yields -/
  | nilDeref

/-! ## `DynamoDBRepository` -/

/-- The receiver of `Put` and `Query` on the bucket tier. -/
structure DynamoDBRepository (F : Type) where
  /-- the fixed-point multiplier handed to the readers -/
  Multiplier : F
  /-- the granularity the repository queries at -/
  Granularity : Duration
  /-- the state of the table the repository points to -/
  Table : Table

/-- The partition key `fmt.Sprintf("%s|%d", series.String(), int64(granularity.Seconds()))`. -/
def hashKey (series : UUID) (granularity : Duration) : String :=
  series.String ++ "|" ++ formatInt granularity.wholeSeconds

/-- The arguments of one call of `Table.PutItem`. -/
structure PutItemRequest where
  /-- the partition key -/
  hashKey : String
  /-- the range key -/
  rangeKey : String
  /-- the further attributes of the item -/
  attributes : List Attribute
  deriving DecidableEq, Repr

/-- The request `Put` assembles (lines 39 to 48). -/
def putRequest (series : UUID) (granularity : Duration) (start : Time)
    (attributes : List EncodedBucketAttribute) : PutItemRequest where
  hashKey := hashKey series granularity
  rangeKey := formatInt start.Unix
  attributes := attributes.map fun encodedAttribute =>
    ⟨TYPE_BINARY, encodedAttribute.Name, EncodeToString encodedAttribute.Data⟩

/-- Model of `DynamoDBRepository.Put`: the table after the call and the error
returned. -/
def DynamoDBRepository.Put {F : Type} (self : DynamoDBRepository F) (series : UUID)
    (granularity : Duration) (start : Time) (attributes : List EncodedBucketAttribute) :
    Timedb.Table × Option Error :=
  let r := putRequest series granularity start attributes
  self.Table.PutItem r.hashKey r.rangeKey r.attributes

/-- The loop of `entryReader` over the requested attributes (lines 65 to 71). -/
def attributeDecoders (item : Item) :
    List String → List (String × BucketDecoder) → Built (List (String × BucketDecoder))
  | [], decs => .ok decs
  | a :: rest, decs =>
    match item.lookup a with
    | none => .nilDeref
    | some col =>
      match DecodeString col.Value with
      | .error e => .failed e
      | .ok data => attributeDecoders item rest (mapSet decs a ⟨0, data⟩)

/-- Model of `DynamoDBRepository.entryReader`; `TimeAttribute` is the reserved
name of the time column and `bucketEntryReader` the reader constructor. -/
def DynamoDBRepository.entryReader {F : Type} (self : DynamoDBRepository F)
    (bucketEntryReader : ReaderMaker F) (TimeAttribute : String)
    (series : UUID) (item : Item) (attributes : List String) : Built (EntryReader F) :=
  match item.lookup TimeAttribute with
  | none => .nilDeref
  | some tcol =>
    match DecodeString tcol.Value with
    | .error e => .failed e
    | .ok tData =>
      match item.lookup "time" with
      | none => .nilDeref
      | some tm =>
        match ParseInt tm.Value with
        | .error e => .failed e
        | .ok startUnix =>
          match attributeDecoders item attributes [(TimeAttribute, ⟨startUnix, tData⟩)] with
          | .nilDeref => .nilDeref
          | .failed e => .failed e
          | .ok decs => .ok (bucketEntryReader series self.Multiplier decs attributes)

/-- The comparisons `Query` hands to the scan (lines 76 to 80). -/
def DynamoDBRepository.comparisons {F : Type} (self : DynamoDBRepository F) (series : UUID)
    (start stop : Time) : List AttributeComparison :=
  [NewEqualStringAttributeComparison "series" (hashKey series self.Granularity),
   NewNumericAttributeComparison "time" COMPARISON_GREATER_THAN_OR_EQUAL start.Unix,
   NewNumericAttributeComparison "time" COMPARISON_LESS_THAN stop.Unix]

/-- What a run of `Query` leaves behind: the values sent on each channel, in
order, and whether the run ended in a nil-pointer panic. -/
structure QueryOutput (F : Type) where
  /-- the entries sent on the entries channel -/
  entries : List (Entry F)
  /-- the errors sent on the errors channel -/
  errors : List Error
  /-- whether the run died dereferencing a nil pointer -/
  crashed : Bool
  deriving DecidableEq, Repr

/-- The inner loop (lines 96 to 107) from the `k`-th call of `ReadEntries` on:
the entries it sends, each as filled at the time it is sent, or `none` when
`fuel` calls did not reach an error. The `Printf` of line 100 is left out. -/
def readLoop {F : Type} (reader : EntryReader F) : Nat → Nat → Option (List (Entry F))
  | 0, _ => none
  | fuel + 1, k =>
    if (reader k).err.isSome then some (reader k).entries
    else (readLoop reader fuel (k + 1)).map fun more => (reader k).entries ++ more

/-- The loop over the scanned items (lines 86 to 108); `fuel` bounds the calls
of `ReadEntries` per bucket, `none` means a bucket exceeded it. -/
def DynamoDBRepository.emitItems {F : Type} (self : DynamoDBRepository F)
    (bucketEntryReader : ReaderMaker F) (TimeAttribute : String) (fuel : Nat)
    (series : UUID) (attributes : List String) : List Item → Option (QueryOutput F)
  | [] => some ⟨[], [], false⟩
  | item :: rest =>
    match self.entryReader bucketEntryReader TimeAttribute series item attributes with
    | .nilDeref => some ⟨[], [], true⟩
    | .failed e => some ⟨[], [e], false⟩
    | .ok reader =>
      match readLoop reader fuel 0 with
      | none => none
      | some sent =>
        (self.emitItems bucketEntryReader TimeAttribute fuel series attributes rest).map
          fun out => ⟨sent ++ out.entries, out.errors, out.crashed⟩

/-- Model of `DynamoDBRepository.Query`. -/
def DynamoDBRepository.Query {F : Type} (self : DynamoDBRepository F)
    (bucketEntryReader : ReaderMaker F) (TimeAttribute : String) (fuel : Nat)
    (series : UUID) (start stop : Time) (attributes : List String) : Option (QueryOutput F) :=
  match self.Table.Query (self.comparisons series start stop) with
  | .error e => some ⟨[], [e], false⟩
  | .ok items => self.emitItems bucketEntryReader TimeAttribute fuel series attributes items

/-! ## `DynamoDBCache` -/

/-- The receiver of `Query` and `Insert` on the cache tier. -/
structure DynamoDBCache where
  /-- the state of the table the cache points to -/
  Table : Table

/-- The conditions the cache `Query` hands to the scan (lines 116 to 120). -/
def DynamoDBCache.conditions (series : UUID) (start stop : Time) : List AttributeComparison :=
  [NewEqualStringAttributeComparison "series" series.String,
   NewNumericAttributeComparison "time" COMPARISON_GREATER_THAN_OR_EQUAL start.Unix,
   NewNumericAttributeComparison "time" COMPARISON_LESS_THAN_OR_EQUAL stop.Unix]

/-- The loop over the fields of one record (lines 130 to 149), visiting them in
the order of the list: the entry so far and the errors sent so far. -/
def readFields {F : Type} (fl : Float64Ops F) :
    List (String × Attribute) → Entry F → List Error → Entry F × List Error
  | [], e, errs => (e, errs)
  | (name, a) :: rest, e, errs =>
    if name = "series" then readFields fl rest e errs
    else if name = "time" then
      match ParseInt a.Value with
      | .error err => readFields fl rest e (errs ++ [err])
      | .ok unixTime => readFields fl rest { e with Timestamp := timeUnix unixTime } errs
    else
      match fl.ParseFloat a.Value with
      | .error err => readFields fl rest e (errs ++ [err])
      | .ok value =>
        readFields fl rest { e with Attributes := mapSet e.Attributes name value } errs

/-- The entry built from one record and the errors sent while building it. -/
def recordEntry {F : Type} (fl : Float64Ops F) (item : Item) : Entry F × List Error :=
  readFields fl item ⟨Time.zero, []⟩ []

/-- The loop over the scanned records (lines 126 to 151). -/
def DynamoDBCache.emitItems {F : Type} (fl : Float64Ops F) : List Item → QueryOutput F
  | [] => ⟨[], [], false⟩
  | item :: rest =>
    let out := DynamoDBCache.emitItems fl rest
    ⟨(recordEntry fl item).1 :: out.entries, (recordEntry fl item).2 ++ out.errors, out.crashed⟩

/-- Model of `DynamoDBCache.Query`. -/
def DynamoDBCache.Query {F : Type} (fl : Float64Ops F) (self : DynamoDBCache) (series : UUID)
    (start stop : Time) : QueryOutput F :=
  match self.Table.Query (DynamoDBCache.conditions series start stop) with
  | .error e => ⟨[], [e], false⟩
  | .ok items => DynamoDBCache.emitItems fl items

/-- The map read `m[k]`: the stored value, or the zero value. -/
def mapGet {β : Type} (m : List (String × β)) (k : String) (zero : β) : β :=
  (m.lookup k).getD zero

/-- The request `Insert` assembles (lines 155 to 162). -/
def insertRequest {F : Type} (fl : Float64Ops F) (series : UUID) (entry : Entry F) :
    PutItemRequest where
  hashKey := series.String
  rangeKey := formatInt entry.Timestamp.Unix
  attributes := [⟨"N", "raw", fl.format (mapGet entry.Attributes "raw" fl.zero)⟩]

/-- Model of `DynamoDBCache.Insert`: the table after the call and the error
returned. -/
def DynamoDBCache.Insert {F : Type} (fl : Float64Ops F) (self : DynamoDBCache) (series : UUID)
    (entry : Entry F) : Timedb.Table × Option Error :=
  let r := insertRequest fl series entry
  self.Table.PutItem r.hashKey r.rangeKey r.attributes

/-! ## Concrete inputs used to exercise the definitions -/

/-- The valid series identifier `00010203-0405-0607-0809-0a0b0c0d0e0f`. -/
def sampleSeries : UUID := ⟨(List.range 16).map byteOf⟩

/-- The `float64` values that are integers of magnitude below one million: `%v`
prints such a value as its plain decimal integer, and `ParseFloat` reads a plain
decimal integer of that size back as the value. Texts that denote other numbers
are outside this instance. -/
def wholeFloats : Float64Ops Int where
  zero := 0
  format := formatInt
  ParseFloat s :=
    match parseDecimal s with
    | some n => .ok n
    | none => .error (.numSyntax s)

/-- A working table that holds nothing. -/
def emptyTable : Table := ⟨[], none⟩

/-- A repository with multiplier 10 and granularity 60 s on the given table. -/
def minuteRepo (t : Table) : DynamoDBRepository Int := ⟨10, ⟨60000000000⟩, t⟩

/-- The table after `Put` of the bucket starting at unix second 0, at
granularity 60 s, into the empty table. -/
def tableWithBucketAtZero : Table :=
  ((minuteRepo emptyTable).Put sampleSeries ⟨60000000000⟩ (timeUnix 0)
    [⟨"raw", [byteOf 1, byteOf 2, byteOf 3]⟩]).1

/-- The error that reading one field of a cache record sends, if any (the two
failure branches of lines 131 to 146). -/
def fieldError {F : Type} (fl : Float64Ops F) : String × Attribute → Option Error
  | (name, a) =>
    if name = "series" then none
    else if name = "time" then
      match ParseInt a.Value with
      | .error err => some err
      | .ok _ => none
    else
      match fl.ParseFloat a.Value with
      | .error err => some err
      | .ok _ => none

/-- A cache record with a valid time, a valid `raw` column and a column `bad`
whose text is not a number. -/
def recordWithBadField : Item :=
  [("series", ⟨"S", "series", "00010203-0405-0607-0809-0a0b0c0d0e0f"⟩),
   ("time", ⟨"N", "time", "5"⟩),
   ("raw", ⟨"N", "raw", "3"⟩),
   ("bad", ⟨"N", "bad", "abc"⟩)]

/-- A cache on a working table that holds `recordWithBadField` only. -/
def cacheWithBadField : DynamoDBCache := ⟨⟨[recordWithBadField], none⟩⟩

/-- Whether a reader returns an error within its first `fuel` calls. -/
def readerStops {F : Type} (reader : EntryReader F) (fuel : Nat) : Prop :=
  ∃ k, k < fuel ∧ (reader k).err.isSome = true

/-- Modelled from the spec: `bucketEntryReader` and the bucket codec behind it
are not among the sources. This reader follows section 4.1 on the simplest
column format, one byte per sample: byte `k` of the time column is the offset of
sample `k` from the bucket start in seconds, byte `k` of an attribute column is
the stored integer of sample `k`, decoded by dividing by the multiplier. Call
`k` of `ReadEntries` fills one entry with timestamp `start + offset` and the
requested attributes that have a position `k`, and the call after the last
sample returns end-of-data. The time column is looked up under `timeAttribute`. -/
def byteColumnReader (timeAttribute : String) : ReaderMaker Int :=
  fun _ multiplier decs attributes k =>
    match decs.lookup timeAttribute with
    | none => ⟨[], some .eof⟩
    | some tdec =>
      match tdec.data[k]? with
      | none => ⟨[], some .eof⟩
      | some off =>
        ⟨[⟨timeUnix (tdec.start + off.val),
            attributes.filterMap fun a =>
              (decs.lookup a).bind fun d => d.data[k]?.map fun b => (a, (b.val : Int) / multiplier)⟩],
          none⟩

/-- A reader constructor whose readers fill one entry, at second 0, on the first
call and report a decoding failure on the second. -/
def truncatedColumnReader : ReaderMaker Int :=
  fun _ _ _ _ k =>
    if k = 0 then ⟨[⟨timeUnix 0, [("raw", 1)]⟩], none⟩
    else ⟨[], some (.decode "unexpected end of column")⟩

/-- A repository with multiplier 1 and granularity 60 s on the given table. -/
def unitRepo (t : Table) : DynamoDBRepository Int := ⟨1, ⟨60000000000⟩, t⟩

/-- A stored bucket of `sampleSeries` at granularity 60 s: its start in unix
seconds, the base64 text of its time column and of its `raw` column. -/
def bucketItem (start timeColumn rawColumn : String) : Item :=
  [("series", ⟨"S", "series", "00010203-0405-0607-0809-0a0b0c0d0e0f|60"⟩),
   ("time", ⟨"N", "time", start⟩),
   ("times", ⟨"B", "times", timeColumn⟩),
   ("raw", ⟨"B", "raw", rawColumn⟩)]

/-- Three buckets in scan order. The first (start 0) and the third (start 1200)
hold the samples at offsets 0 s and 60 s with stored values 1 and 2; the time
column of the second (start 600) is not base64 text. -/
def threeBuckets : List Item :=
  [bucketItem "0" (EncodeToString [byteOf 0, byteOf 60]) (EncodeToString [byteOf 1, byteOf 2]),
   bucketItem "600" "!corrupt" (EncodeToString [byteOf 1, byteOf 2]),
   bucketItem "1200" (EncodeToString [byteOf 0, byteOf 60]) (EncodeToString [byteOf 1, byteOf 2])]

/-- A working table holding one bucket of `sampleSeries` that starts at second 0
with samples at the offsets 0 s, 60 s, 120 s and 240 s. -/
def tableWithLateSample : Table :=
  ⟨[bucketItem "0" (EncodeToString [byteOf 0, byteOf 60, byteOf 120, byteOf 240])
      (EncodeToString [byteOf 1, byteOf 2, byteOf 3, byteOf 4])], none⟩

/-- A working table holding `threeBuckets`. -/
def tableWithCorruptBucket : Table := ⟨threeBuckets, none⟩

/-- Whether the window `[b, b + D)` of a bucket starting at unix second `b`
meets the range `[start, stop)`. -/
def windowMeets (b : Int) (D : Duration) (start stop : Time) : Prop :=
  b * 1000000000 < stop.unixNano ∧ start.unixNano < b * 1000000000 + D.ns

instance (b : Int) (D : Duration) (start stop : Time) : Decidable (windowMeets b D start stop) := by
  unfold windowMeets; infer_instance

/-! ## Decimal text: reading back what was printed -/

theorem digitVal_digitChar (d : Nat) (h : d < 10) : digitVal (digitChar d) = some d := by
  have key : ∀ k : Fin 10, digitVal (digitChar k.val) = some k.val := by decide
  exact key ⟨d, h⟩

theorem parseDigitsAux_append (l1 l2 : List Char) (acc : Nat) :
    parseDigitsAux acc (l1 ++ l2) = (parseDigitsAux acc l1).bind fun v => parseDigitsAux v l2 := by
  induction l1 generalizing acc with
  | nil => simp [parseDigitsAux]
  | cons c cs ih =>
    simp only [List.cons_append, parseDigitsAux]
    cases digitVal c with
    | none => simp
    | some d => simpa using ih (acc * 10 + d)

theorem parseDigitsAux_natDigits (fuel n : Nat) (h : n < fuel) :
    parseDigitsAux 0 (natDigits fuel n) = some n := by
  induction fuel generalizing n with
  | zero => omega
  | succ fuel ih =>
    unfold natDigits
    split
    · rename_i h10
      simp [parseDigitsAux, digitVal_digitChar n h10]
    · rename_i h10
      rw [parseDigitsAux_append, ih (n / 10) (by omega)]
      simp [parseDigitsAux, digitVal_digitChar (n % 10) (Nat.mod_lt n (by decide))]
      omega

theorem natDigits_head (fuel n : Nat) :
    ∃ d tl, d < 10 ∧ natDigits (fuel + 1) n = digitChar d :: tl := by
  induction fuel generalizing n with
  | zero =>
    unfold natDigits
    split
    · exact ⟨n, [], by assumption, rfl⟩
    · exact ⟨n % 10, [], Nat.mod_lt n (by decide), by simp [natDigits]⟩
  | succ fuel ih =>
    unfold natDigits
    split
    · exact ⟨n, [], by assumption, rfl⟩
    · obtain ⟨d, tl, hd, htl⟩ := ih (n / 10)
      exact ⟨d, tl ++ [digitChar (n % 10)], hd, by rw [htl]; rfl⟩

theorem digitChar_ne_sign (d : Nat) (h : d < 10) : digitChar d ≠ '+' ∧ digitChar d ≠ '-' := by
  have key : ∀ k : Fin 10, digitChar k.val ≠ '+' ∧ digitChar k.val ≠ '-' := by decide
  exact key ⟨d, h⟩

theorem parseDigits_formatNat (n : Nat) : parseDigits (formatNat n) = some n := by
  obtain ⟨d, tl, _, htl⟩ := natDigits_head n n
  have h := parseDigitsAux_natDigits (n + 1) n (by omega)
  unfold formatNat
  rw [htl] at h ⊢
  simpa [parseDigits] using h

theorem parseDecimal_formatInt (n : Int) : parseDecimal (formatInt n) = some n := by
  cases n with
  | ofNat m =>
    obtain ⟨d, tl, hd, htl⟩ := natDigits_head m m
    have hp := parseDigits_formatNat m
    have hs := digitChar_ne_sign d hd
    unfold formatNat at hp
    simp only [formatInt, formatNat, parseDecimal]
    rw [htl] at hp ⊢
    split
    · rename_i heq; simp at heq; exact absurd heq.1 hs.1
    · rename_i heq; simp at heq; exact absurd heq.1 hs.2
    · simp [hp]
  | negSucc m =>
    have hp := parseDigits_formatNat (m + 1)
    simp only [formatInt, parseDecimal, hp]
    simp [Int.negSucc_eq]

theorem formatInt_injective {a b : Int} (h : formatInt a = formatInt b) : a = b := by
  have ha := parseDecimal_formatInt a
  rw [h, parseDecimal_formatInt] at ha
  exact (Option.some.inj ha).symm

theorem ParseInt_formatInt (n : Int) (h : inInt64 n) : ParseInt (formatInt n) = .ok n := by
  simp [ParseInt, parseDecimal_formatInt, h]

/-! ## Base64: decoding what was encoded -/

theorem b64Val_b64Char (n : Nat) (h : n < 64) : b64Val (b64Char n) = some n := by
  have key : ∀ k : Fin 64, b64Val (b64Char k.val) = some k.val := by decide
  exact key ⟨n, h⟩

theorem b64Char_plain (n : Nat) (h : n < 64) :
    b64Char n ≠ '=' ∧ b64Char n ≠ '\r' ∧ b64Char n ≠ '\n' := by
  have key : ∀ k : Fin 64,
      b64Char k.val ≠ '=' ∧ b64Char k.val ≠ '\r' ∧ b64Char k.val ≠ '\n' := by decide
  exact key ⟨n, h⟩

theorem byteOf_val (a : Byte) (n : Nat) (h : n = a.val) : byteOf n = a := by
  apply Fin.ext
  have := a.isLt
  simp only [byteOf]
  omega

theorem base64Chars_no_newline (data : List Byte) :
    ∀ c ∈ base64Chars data, c ≠ '\r' ∧ c ≠ '\n' := by
  induction data using base64Chars.induct with
  | case1 => simp [base64Chars]
  | case2 a =>
    have := a.isLt
    intro c hc
    simp only [base64Chars, List.mem_cons, List.mem_singleton, List.not_mem_nil, or_false] at hc
    rcases hc with rfl | rfl | rfl | rfl
    · exact (b64Char_plain _ (by omega)).2
    · exact (b64Char_plain _ (by omega)).2
    · decide
    · decide
  | case3 a b =>
    have := a.isLt
    have := b.isLt
    intro c hc
    simp only [base64Chars, List.mem_cons, List.mem_singleton, List.not_mem_nil, or_false] at hc
    rcases hc with rfl | rfl | rfl | rfl
    · exact (b64Char_plain _ (by omega)).2
    · exact (b64Char_plain _ (by omega)).2
    · exact (b64Char_plain _ (by omega)).2
    · decide
  | case4 a b c rest ih =>
    have := a.isLt
    have := b.isLt
    have := c.isLt
    intro x hx
    simp only [base64Chars, List.mem_cons] at hx
    rcases hx with rfl | rfl | rfl | rfl | hx
    · exact (b64Char_plain _ (by omega)).2
    · exact (b64Char_plain _ (by omega)).2
    · exact (b64Char_plain _ (by omega)).2
    · exact (b64Char_plain _ (by omega)).2
    · exact ih x hx

theorem base64Quanta_base64Chars (data : List Byte) :
    base64Quanta (base64Chars data) = some data := by
  induction data using base64Chars.induct with
  | case1 => simp [base64Chars, base64Quanta]
  | case2 a =>
    have := a.isLt
    simp only [base64Chars, base64Quanta]
    rw [b64Val_b64Char _ (by omega), b64Val_b64Char _ (by omega)]
    simp only [and_self, ite_true, Option.some.injEq, List.cons.injEq, and_true]
    exact byteOf_val a _ (by omega)
  | case3 a b =>
    have := a.isLt
    have := b.isLt
    simp only [base64Chars, base64Quanta]
    rw [b64Val_b64Char _ (by omega), b64Val_b64Char _ (by omega)]
    simp only [(b64Char_plain (b.val % 16 * 4) (by omega)).1, ite_false]
    rw [b64Val_b64Char _ (by omega)]
    simp only [ite_true, Option.some.injEq, List.cons.injEq, and_true]
    exact ⟨byteOf_val a _ (by omega), byteOf_val b _ (by omega)⟩
  | case4 a b c rest ih =>
    have := a.isLt
    have := b.isLt
    have := c.isLt
    simp only [base64Chars, base64Quanta]
    rw [b64Val_b64Char _ (by omega), b64Val_b64Char _ (by omega)]
    simp only [(b64Char_plain (b.val % 16 * 4 + c.val / 64) (by omega)).1, ite_false]
    rw [b64Val_b64Char _ (by omega)]
    simp only [(b64Char_plain (c.val % 64) (by omega)).1, ite_false]
    rw [b64Val_b64Char _ (by omega), ih]
    simp only [Option.map_some', Option.some.injEq, List.cons.injEq, and_true]
    exact ⟨byteOf_val a _ (by omega), byteOf_val b _ (by omega), byteOf_val c _ (by omega)⟩

theorem DecodeString_EncodeToString (data : List Byte) :
    DecodeString (EncodeToString data) = .ok data := by
  have hf : (base64Chars data).filter (fun c => decide (c ≠ '\r' ∧ c ≠ '\n')) =
      base64Chars data := by
    rw [List.filter_eq_self]
    intro c hc
    simpa using base64Chars_no_newline data c hc
  simp only [DecodeString, EncodeToString, hf, base64Quanta_base64Chars]

/-! ## Identifier text -/

theorem hexChar_injective (a b : Nat) (ha : a < 16) (hb : b < 16) (h : hexChar a = hexChar b) :
    a = b := by
  have key : ∀ x y : Fin 16, hexChar x.val = hexChar y.val → x.val = y.val := by decide
  exact key ⟨a, ha⟩ ⟨b, hb⟩ h

theorem hexBytes_length (bs : List Byte) : (hexBytes bs).length = 2 * bs.length := by
  induction bs with
  | nil => rfl
  | cons b bs ih => simp [hexBytes, ih]; omega

theorem hexBytes_injective {xs ys : List Byte} (h : hexBytes xs = hexBytes ys) : xs = ys := by
  induction xs generalizing ys with
  | nil =>
    cases ys with
    | nil => rfl
    | cons y ys => simp [hexBytes] at h
  | cons x xs ih =>
    cases ys with
    | nil => simp [hexBytes] at h
    | cons y ys =>
      simp only [hexBytes, List.cons.injEq] at h
      obtain ⟨h1, h2, h3⟩ := h
      have e1 := hexChar_injective _ _ (by omega) (by omega) h1
      have e2 := hexChar_injective _ _ (by omega) (by omega) h2
      have : x = y := by
        apply Fin.ext
        omega
      rw [this, ih h3]

/-- The text of a valid identifier has 36 characters. -/
theorem UUID_String_length (u : UUID) (h : u.bytes.length = 16) : u.String.data.length = 36 := by
  simp [UUID.String, h, hexBytes_length]

theorem UUID_String_injective (u v : UUID) (hu : u.bytes.length = 16) (hv : v.bytes.length = 16)
    (h : u.String = v.String) : u = v := by
  simp only [UUID.String, hu, hv, ne_eq, not_true_eq_false, ite_false] at h
  replace h := congrArg String.data h
  simp only at h
  have len4 : ∀ w : UUID, w.bytes.length = 16 → (hexBytes (w.bytes.take 4)).length = 8 := by
    intro w hw; simp [hexBytes_length, hw]
  have len2 : ∀ (w : UUID) (k : Nat), w.bytes.length = 16 → k ≤ 14 →
      (hexBytes ((w.bytes.drop k).take 2)).length = 4 := by
    intro w k hw hk; simp [hexBytes_length, hw]; omega
  obtain ⟨h1, h⟩ := List.append_inj h (by rw [len4 u hu, len4 v hv])
  simp only [List.cons.injEq, true_and] at h
  obtain ⟨h2, h⟩ := List.append_inj h (by rw [len2 u 4 hu (by omega), len2 v 4 hv (by omega)])
  simp only [List.cons.injEq, true_and] at h
  obtain ⟨h3, h⟩ := List.append_inj h (by rw [len2 u 6 hu (by omega), len2 v 6 hv (by omega)])
  simp only [List.cons.injEq, true_and] at h
  obtain ⟨h4, h⟩ := List.append_inj h (by rw [len2 u 8 hu (by omega), len2 v 8 hv (by omega)])
  simp only [List.cons.injEq, true_and] at h
  have e1 := hexBytes_injective h1
  have e2 := hexBytes_injective h2
  have e3 := hexBytes_injective h3
  have e4 := hexBytes_injective h4
  have e5 := hexBytes_injective h
  have split : ∀ l : List Byte, l = l.take 4 ++ ((l.drop 4).take 2 ++ ((l.drop 6).take 2 ++
      ((l.drop 8).take 2 ++ l.drop 10))) := by
    intro l
    have a1 : l.drop 8 = (l.drop 8).take 2 ++ l.drop 10 := by
      rw [← List.drop_drop 2 8 l]; exact (List.take_append_drop 2 _).symm
    have a2 : l.drop 6 = (l.drop 6).take 2 ++ l.drop 8 := by
      rw [← List.drop_drop 2 6 l]; exact (List.take_append_drop 2 _).symm
    have a3 : l.drop 4 = (l.drop 4).take 2 ++ l.drop 6 := by
      rw [← List.drop_drop 2 4 l]; exact (List.take_append_drop 2 _).symm
    rw [← a1, ← a2, ← a3, List.take_append_drop]
  cases u with
  | mk ub =>
    cases v with
    | mk vb =>
      simp only [UUID.mk.injEq]
      simp only at e1 e2 e3 e4 e5
      rw [split ub, split vb, e1, e2, e3, e4, e5]

/-! ## What the scan conditions mean -/

theorem equalString_holds (name value : String) (item : Item) :
    (NewEqualStringAttributeComparison name value).holds item = true ↔
      ∃ a, item.lookup name = some a ∧ a.AttrType = TYPE_STRING ∧ a.Value = value := by
  unfold AttributeComparison.holds NewEqualStringAttributeComparison
  cases item.lookup name with
  | none => simp
  | some a => by_cases ht : a.AttrType = TYPE_STRING <;> simp [ht]

theorem greaterEqual_holds (name : String) (v : Int) (item : Item) :
    (NewNumericAttributeComparison name COMPARISON_GREATER_THAN_OR_EQUAL v).holds item = true ↔
      ∃ a x, item.lookup name = some a ∧ a.AttrType = TYPE_NUMBER ∧
        parseDecimal a.Value = some x ∧ v ≤ x := by
  have hne : COMPARISON_GREATER_THAN_OR_EQUAL ≠ COMPARISON_EQUAL := by decide
  unfold AttributeComparison.holds NewNumericAttributeComparison
  cases item.lookup name with
  | none => simp
  | some a =>
    by_cases ht : a.AttrType = TYPE_NUMBER
    · cases hp : parseDecimal a.Value <;> simp [ht, hne, hp, parseDecimal_formatInt]
    · simp [ht]

theorem lessThan_holds (name : String) (v : Int) (item : Item) :
    (NewNumericAttributeComparison name COMPARISON_LESS_THAN v).holds item = true ↔
      ∃ a x, item.lookup name = some a ∧ a.AttrType = TYPE_NUMBER ∧
        parseDecimal a.Value = some x ∧ x < v := by
  have hne : COMPARISON_LESS_THAN ≠ COMPARISON_EQUAL := by decide
  have hne2 : COMPARISON_LESS_THAN ≠ COMPARISON_GREATER_THAN_OR_EQUAL := by decide
  unfold AttributeComparison.holds NewNumericAttributeComparison
  cases item.lookup name with
  | none => simp
  | some a =>
    by_cases ht : a.AttrType = TYPE_NUMBER
    · cases hp : parseDecimal a.Value <;> simp [ht, hne, hne2, hp, parseDecimal_formatInt]
    · simp [ht]

theorem lessEqual_holds (name : String) (v : Int) (item : Item) :
    (NewNumericAttributeComparison name COMPARISON_LESS_THAN_OR_EQUAL v).holds item = true ↔
      ∃ a x, item.lookup name = some a ∧ a.AttrType = TYPE_NUMBER ∧
        parseDecimal a.Value = some x ∧ x ≤ v := by
  have hne : COMPARISON_LESS_THAN_OR_EQUAL ≠ COMPARISON_EQUAL := by decide
  have hne2 : COMPARISON_LESS_THAN_OR_EQUAL ≠ COMPARISON_GREATER_THAN_OR_EQUAL := by decide
  have hne3 : COMPARISON_LESS_THAN_OR_EQUAL ≠ COMPARISON_LESS_THAN := by decide
  unfold AttributeComparison.holds NewNumericAttributeComparison
  cases item.lookup name with
  | none => simp
  | some a =>
    by_cases ht : a.AttrType = TYPE_NUMBER
    · cases hp : parseDecimal a.Value <;>
        simp [ht, hne, hne2, hne3, hp, parseDecimal_formatInt]
    · simp [ht]

/-- An item passes the conditions of the repository `Query` exactly when its
`series` attribute is the partition key and its `time` attribute is a number
`b` with `start.Unix() ≤ b < end.Unix()`. -/
theorem comparisons_all_iff {F : Type} (self : DynamoDBRepository F) (series : UUID)
    (start stop : Time) (item : Item) :
    ((self.comparisons series start stop).all fun c => c.holds item) = true ↔
      (∃ s, item.lookup "series" = some s ∧ s.AttrType = TYPE_STRING ∧
        s.Value = hashKey series self.Granularity) ∧
      ∃ t b, item.lookup "time" = some t ∧ t.AttrType = TYPE_NUMBER ∧
        parseDecimal t.Value = some b ∧ start.Unix ≤ b ∧ b < stop.Unix := by
  simp only [DynamoDBRepository.comparisons, List.all_cons, List.all_nil, Bool.and_true,
    Bool.and_eq_true, equalString_holds, greaterEqual_holds, lessThan_holds]
  constructor
  · rintro ⟨hs, ⟨t, b, ht, hty, hb, hge⟩, ⟨t2, b2, ht2, _, hb2, hlt⟩⟩
    rw [ht] at ht2
    cases ht2
    rw [hb] at hb2
    cases hb2
    exact ⟨hs, t, b, ht, hty, hb, hge, hlt⟩
  · rintro ⟨hs, t, b, ht, hty, hb, hge, hlt⟩
    exact ⟨hs, ⟨t, b, ht, hty, hb, hge⟩, ⟨t, b, ht, hty, hb, hlt⟩⟩

/-! ## Which buckets the scan returns -/

/-- Claim C2, as the code has it: on a working backend the scan of `Query`
returns exactly the stored items whose `series` attribute is the partition key
of the series at the repository granularity and whose `time` attribute is a
number `b` with `start.Unix() ≤ b < end.Unix()`; for a bucket duration of at
least one second the window `[b, b+D)` of every returned bucket meets
`[start, end)`. A bucket that starts before `start.Unix()` is not returned. -/
theorem scan_selects_by_bucket_start {F : Type} (self : DynamoDBRepository F) (series : UUID)
    (start stop : Time) (D : Duration) (hD : 1000000000 ≤ D.ns)
    (hup : self.Table.fault = none) :
    ∃ items, self.Table.Query (self.comparisons series start stop) = .ok items ∧
      (∀ item, item ∈ items ↔ item ∈ self.Table.items ∧
        (∃ s, item.lookup "series" = some s ∧ s.AttrType = TYPE_STRING ∧
          s.Value = hashKey series self.Granularity) ∧
        ∃ t b, item.lookup "time" = some t ∧ t.AttrType = TYPE_NUMBER ∧
          parseDecimal t.Value = some b ∧ start.Unix ≤ b ∧ b < stop.Unix) ∧
      ∀ item ∈ items, ∃ t b, item.lookup "time" = some t ∧ parseDecimal t.Value = some b ∧
        windowMeets b D start stop := by
  refine ⟨self.Table.items.filter fun it => (self.comparisons series start stop).all
    fun c => c.holds it, by simp only [Table.Query, hup], ?_, ?_⟩
  · intro item
    rw [List.mem_filter, comparisons_all_iff]
  · intro item hmem
    rw [List.mem_filter, comparisons_all_iff] at hmem
    obtain ⟨_, _, t, b, ht, _, hb, hlo, hhi⟩ := hmem
    refine ⟨t, b, ht, hb, ?_⟩
    unfold Time.Unix at hlo hhi
    unfold windowMeets
    constructor <;> omega

/-! ## A bucket that was put is found again -/

/-- Claim C4, as the code has it: on a working backend, when the granularity
given to `Put` has the same whole seconds as the repository granularity and the
bucket start satisfies `start.Unix() ≤ b.Unix() < end.Unix()`, `Put` succeeds and
the scan `Query` then runs on the same repository returns the item `Put` wrote. -/
theorem put_then_scan_finds {F : Type} (self : DynamoDBRepository F) (series : UUID)
    (granularity : Duration) (b : Time) (attributes : List EncodedBucketAttribute)
    (start stop : Time) (hup : self.Table.fault = none)
    (hg : granularity.wholeSeconds = self.Granularity.wholeSeconds)
    (hlo : start.Unix ≤ b.Unix) (hhi : b.Unix < stop.Unix) :
    (self.Put series granularity b attributes).2 = none ∧
    ∃ items,
      (self.Put series granularity b attributes).1.Query
        (self.comparisons series start stop) = .ok items ∧
      Table.newItem (putRequest series granularity b attributes).hashKey
        (putRequest series granularity b attributes).rangeKey
        (putRequest series granularity b attributes).attributes ∈ items := by
  have hk : hashKey series granularity = hashKey series self.Granularity := by
    simp only [hashKey, hg]
  refine ⟨by simp [DynamoDBRepository.Put, Table.PutItem, hup],
    (self.Put series granularity b attributes).1.items.filter fun it =>
      (self.comparisons series start stop).all fun c => c.holds it,
    by simp only [DynamoDBRepository.Put, Table.PutItem, hup, Table.Query], ?_⟩
  simp only [DynamoDBRepository.Put, Table.PutItem, hup]
  rw [List.mem_filter, comparisons_all_iff]
  refine ⟨by simp, ⟨⟨TYPE_STRING, "series", hashKey series granularity⟩, ?_, rfl, hk⟩,
    ⟨TYPE_NUMBER, "time", formatInt b.Unix⟩, b.Unix, ?_, rfl, parseDecimal_formatInt _, hlo, hhi⟩
  · simp [Table.newItem, putRequest, List.lookup]
  · simp [Table.newItem, putRequest, List.lookup]

/-! ## Partition keys -/

/-- Claim C6, as the code has it: for valid (16-byte) series identifiers the
partition keys that `Put` builds are equal exactly when the series are equal and
the two granularities have the same number of whole seconds. -/
theorem hashKey_eq_iff (series1 series2 : UUID) (granularity1 granularity2 : Duration)
    (start1 start2 : Time) (attrs1 attrs2 : List EncodedBucketAttribute)
    (h1 : series1.bytes.length = 16) (h2 : series2.bytes.length = 16) :
    (putRequest series1 granularity1 start1 attrs1).hashKey =
        (putRequest series2 granularity2 start2 attrs2).hashKey ↔
      series1 = series2 ∧ granularity1.wholeSeconds = granularity2.wholeSeconds := by
  constructor
  · intro h
    have hd := congrArg String.data h
    simp only [putRequest, hashKey, String.data_append] at hd
    rw [List.append_assoc, List.append_assoc] at hd
    obtain ⟨e1, e2⟩ := List.append_inj hd
      (by rw [UUID_String_length _ h1, UUID_String_length _ h2])
    have e3 := List.append_cancel_left e2
    refine ⟨UUID_String_injective _ _ h1 h2 (String.ext e1), ?_⟩
    exact formatInt_injective (String.ext e3)
  · rintro ⟨rfl, hg⟩
    simp [putRequest, hashKey, hg]

/-! ## What `Put` writes -/

theorem hasKey_newItem (hashKey rangeKey : String) (attributes : List Attribute) :
    Table.hasKey hashKey rangeKey (Table.newItem hashKey rangeKey attributes) = true := by
  simp [Table.hasKey, Table.newItem, List.lookup]

theorem PutItem_items_with_key (t : Table) (hashKey rangeKey : String)
    (attributes : List Attribute) (hup : t.fault = none) :
    (t.PutItem hashKey rangeKey attributes).1.items.filter (Table.hasKey hashKey rangeKey) =
      [Table.newItem hashKey rangeKey attributes] := by
  simp only [Table.PutItem, hup, List.filter_append, List.filter_filter]
  simp [hasKey_newItem]

theorem PutItem_items_other_key (t : Table) (hashKey rangeKey : String)
    (attributes : List Attribute) (hup : t.fault = none) (item : Item)
    (hother : Table.hasKey hashKey rangeKey item = false) :
    item ∈ (t.PutItem hashKey rangeKey attributes).1.items ↔ item ∈ t.items := by
  simp only [Table.PutItem, hup, List.mem_append, List.mem_filter, List.mem_singleton]
  constructor
  · rintro (⟨h, _⟩ | h)
    · exact h
    · rw [h, hasKey_newItem] at hother
      cases hother
  · intro h
    exact Or.inl ⟨h, by simp [hother]⟩

/-- Claim C7: `Put` makes one `PutItem` call. Its partition key is the series
text, a bar and the decimal whole seconds of the granularity; its range key is
the decimal unix second of the bucket start; its columns are the input
attributes in input order, each binary, named by the attribute and holding the
base64 text of its bytes (which decodes back to them). The error of the backend
is returned as is and nothing is stored then; on a working backend the table
afterwards holds exactly one item under that key, the one described, and every
item under another key is kept. -/
theorem Put_writes_one_item {F : Type} (self : DynamoDBRepository F) (series : UUID)
    (granularity : Duration) (start : Time) (attributes : List EncodedBucketAttribute) :
    (putRequest series granularity start attributes).hashKey =
      series.String ++ "|" ++ formatInt granularity.wholeSeconds ∧
    parseDecimal (formatInt granularity.wholeSeconds) = some (Int.tdiv granularity.ns 1000000000) ∧
    (putRequest series granularity start attributes).rangeKey = formatInt start.Unix ∧
    parseDecimal (putRequest series granularity start attributes).rangeKey = some start.Unix ∧
    (putRequest series granularity start attributes).attributes.length = attributes.length ∧
    (∀ (i : Nat) (h : i < attributes.length),
      (putRequest series granularity start attributes).attributes[i]? =
        some ⟨TYPE_BINARY, attributes[i].Name, EncodeToString attributes[i].Data⟩ ∧
      DecodeString (EncodeToString attributes[i].Data) = .ok attributes[i].Data) ∧
    self.Put series granularity start attributes =
      self.Table.PutItem (putRequest series granularity start attributes).hashKey
        (putRequest series granularity start attributes).rangeKey
        (putRequest series granularity start attributes).attributes ∧
    (∀ e, self.Table.fault = some e →
      self.Put series granularity start attributes = (self.Table, some e)) ∧
    (self.Table.fault = none →
      (self.Put series granularity start attributes).2 = none ∧
      (self.Put series granularity start attributes).1.items.filter
          (Table.hasKey (putRequest series granularity start attributes).hashKey
            (putRequest series granularity start attributes).rangeKey) =
        [Table.newItem (putRequest series granularity start attributes).hashKey
          (putRequest series granularity start attributes).rangeKey
          (putRequest series granularity start attributes).attributes] ∧
      ∀ item, Table.hasKey (putRequest series granularity start attributes).hashKey
            (putRequest series granularity start attributes).rangeKey item = false →
          (item ∈ (self.Put series granularity start attributes).1.items ↔
            item ∈ self.Table.items)) := by
  refine ⟨rfl, parseDecimal_formatInt _, rfl, parseDecimal_formatInt _, by simp [putRequest],
    ?_, rfl, ?_, ?_⟩
  · intro i h
    refine ⟨?_, DecodeString_EncodeToString _⟩
    simp [putRequest, List.getElem?_map, List.getElem?_eq_getElem h]
  · intro e he
    simp [DynamoDBRepository.Put, Table.PutItem, he]
  · intro hup
    refine ⟨by simp [DynamoDBRepository.Put, Table.PutItem, hup], ?_, ?_⟩
    · exact PutItem_items_with_key _ _ _ _ hup
    · intro item hother
      exact PutItem_items_other_key _ _ _ _ hup item hother

/-! ## Reading one cache record -/

theorem lookup_mapSet_self {β : Type} (m : List (String × β)) (k : String) (v : β) :
    (mapSet m k v).lookup k = some v := by
  induction m with
  | nil => simp [mapSet, List.lookup]
  | cons p m ih =>
    obtain ⟨k0, v0⟩ := p
    by_cases h : k0 = k
    · simp [mapSet, h, List.lookup]
    · have h2 : (k == k0) = false := by simpa using fun e => h e.symm
      simp [mapSet, h, List.lookup, h2, ih]

theorem lookup_mapSet_ne {β : Type} (m : List (String × β)) (k k2 : String) (v : β)
    (hne : k2 ≠ k) : (mapSet m k v).lookup k2 = m.lookup k2 := by
  induction m with
  | nil =>
    have h2 : (k2 == k) = false := by simpa using hne
    simp [mapSet, List.lookup, h2]
  | cons p m ih =>
    obtain ⟨k0, v0⟩ := p
    by_cases h : k0 = k
    · have h2 : (k2 == k) = false := by simpa using hne
      simp [mapSet, h, List.lookup, h2]
    · simp only [mapSet, h, ite_false, List.lookup]
      cases k2 == k0 <;> simp [ih]

theorem readFields_errors {F : Type} (fl : Float64Ops F) (fields : List (String × Attribute))
    (e : Entry F) (errs : List Error) :
    (readFields fl fields e errs).2 = errs ++ fields.filterMap (fieldError fl) := by
  induction fields generalizing e errs with
  | nil => simp [readFields]
  | cons p rest ih =>
    obtain ⟨name, a⟩ := p
    unfold readFields
    by_cases hs : name = "series"
    · simp [hs, ih, fieldError]
    · by_cases ht : name = "time"
      · have hts : ¬ ("time" = "series") := by decide
        simp only [ht, hts, ite_false, ite_true]
        cases hp : ParseInt a.Value <;> simp [ih, fieldError, hp]
      · simp only [hs, ht, ite_false]
        cases hp : fl.ParseFloat a.Value <;> simp [ih, fieldError, hp, hs, ht]

theorem lookup_eq_none_of_not_mem {β : Type} (m : List (String × β)) (k : String)
    (h : k ∉ m.map Prod.fst) : m.lookup k = none := by
  induction m with
  | nil => rfl
  | cons p m ih =>
    obtain ⟨k0, v0⟩ := p
    simp only [List.map_cons, List.mem_cons, not_or] at h
    have h2 : (k == k0) = false := by simpa using h.1
    simp [List.lookup, h2, ih h.2]

theorem readFields_attributes {F : Type} (fl : Float64Ops F)
    (fields : List (String × Attribute)) (hmap : (fields.map Prod.fst).Nodup)
    (e : Entry F) (errs : List Error) (name : String) :
    (readFields fl fields e errs).1.Attributes.lookup name =
      if name = "series" ∨ name = "time" then e.Attributes.lookup name
      else ((fields.lookup name).bind fun a => (fl.ParseFloat a.Value).toOption).or
        (e.Attributes.lookup name) := by
  induction fields generalizing e errs with
  | nil => simp [readFields, List.lookup]
  | cons p rest ih =>
    obtain ⟨k, a⟩ := p
    simp only [List.map_cons, List.nodup_cons] at hmap
    obtain ⟨hk, hrest⟩ := hmap
    unfold readFields
    by_cases hs : k = "series"
    · simp only [hs, ite_true]
      rw [ih hrest]
      by_cases hn : name = "series" ∨ name = "time"
      · simp [hn]
      · have h2 : (name == "series") = false := by
          simpa using fun e => hn (Or.inl e)
        simp [hn, List.lookup, h2]
    · by_cases ht : k = "time"
      · have hts : ¬ ("time" = "series") := by decide
        simp only [ht, hts, ite_false, ite_true]
        have h2 : ¬ (name = "series" ∨ name = "time") → (name == "time") = false := by
          intro hn
          simpa using fun e => hn (Or.inr e)
        cases hp : ParseInt a.Value with
        | error err =>
          simp only
          rw [ih hrest]
          by_cases hn : name = "series" ∨ name = "time"
          · simp [hn]
          · simp [hn, List.lookup, h2 hn]
        | ok v =>
          simp only
          rw [ih hrest]
          by_cases hn : name = "series" ∨ name = "time"
          · simp [hn]
          · simp [hn, List.lookup, h2 hn]
      · simp only [hs, ht, ite_false]
        by_cases hn : name = "series" ∨ name = "time"
        · have hne : name ≠ k := by
            rintro rfl
            rcases hn with h | h
            · exact hs h
            · exact ht h
          cases hp : fl.ParseFloat a.Value with
          | error err => simp only; rw [ih hrest]; simp [hn]
          | ok v => simp only; rw [ih hrest]; simp [hn, lookup_mapSet_ne _ _ _ _ hne]
        · by_cases hnk : name = k
          · subst hnk
            have hnone : rest.lookup name = none := lookup_eq_none_of_not_mem rest name hk
            cases hp : fl.ParseFloat a.Value with
            | error err =>
              simp only
              rw [ih hrest]
              simp [hn, List.lookup, hnone, hp, Except.toOption]
            | ok v =>
              simp only
              rw [ih hrest]
              simp [hn, List.lookup, hnone, hp, Except.toOption, lookup_mapSet_self]
          · have h2 : (name == k) = false := by simpa using hnk
            cases hp : fl.ParseFloat a.Value with
            | error err =>
              simp only
              rw [ih hrest]
              simp [hn, List.lookup, h2]
            | ok v =>
              simp only
              rw [ih hrest]
              simp [hn, List.lookup, h2, lookup_mapSet_ne _ _ _ _ hnk]

theorem cache_emitItems_entries {F : Type} (fl : Float64Ops F) (items : List Item) :
    (DynamoDBCache.emitItems fl items).entries = items.map fun it => (recordEntry fl it).1 := by
  induction items with
  | nil => rfl
  | cons it rest ih => simp [DynamoDBCache.emitItems, ih]

theorem cache_emitItems_errors {F : Type} (fl : Float64Ops F) (items : List Item) :
    (DynamoDBCache.emitItems fl items).errors =
      items.flatMap fun it => (recordEntry fl it).2 := by
  induction items with
  | nil => rfl
  | cons it rest ih => simp [DynamoDBCache.emitItems, ih]

theorem length_filterMap_eq_countP {α β : Type} (f : α → Option β) (l : List α) :
    (l.filterMap f).length = l.countP fun x => (f x).isSome := by
  induction l with
  | nil => rfl
  | cons x l ih =>
    cases h : f x <;> simp [List.filterMap_cons, List.countP_cons, h, ih]

/-- Claim C8: for the records the cache scan returns (maps, so with distinct
field names), `Query` sends exactly one entry per record, in scan order; the
attributes of that entry are exactly the fields other than `series` and `time`
whose text parses as a float, each with its parsed value; and the errors sent
for the record are exactly the parse errors of its fields, one per failing
field. -/
theorem cache_query_best_effort {F : Type} (fl : Float64Ops F) (self : DynamoDBCache)
    (series : UUID) (start stop : Time) (items : List Item)
    (hscan : self.Table.Query (DynamoDBCache.conditions series start stop) = .ok items)
    (hmap : ∀ item ∈ items, (item.map Prod.fst).Nodup) :
    (DynamoDBCache.Query fl self series start stop).entries.length = items.length ∧
    (DynamoDBCache.Query fl self series start stop).entries =
      items.map (fun it => (recordEntry fl it).1) ∧
    (DynamoDBCache.Query fl self series start stop).errors =
      items.flatMap (fun it => (recordEntry fl it).2) ∧
    ∀ item ∈ items,
      (∀ name, (recordEntry fl item).1.Attributes.lookup name =
        if name = "series" ∨ name = "time" then none
        else (item.lookup name).bind fun a => (fl.ParseFloat a.Value).toOption) ∧
      (recordEntry fl item).2 = item.filterMap (fieldError fl) ∧
      (recordEntry fl item).2.length = item.countP fun f => (fieldError fl f).isSome := by
  have hq : DynamoDBCache.Query fl self series start stop = DynamoDBCache.emitItems fl items := by
    simp only [DynamoDBCache.Query, hscan]
  rw [hq]
  refine ⟨by simp [cache_emitItems_entries], cache_emitItems_entries fl items,
    cache_emitItems_errors fl items, ?_⟩
  intro item hmem
  have herr : (recordEntry fl item).2 = item.filterMap (fieldError fl) := by
    simp [recordEntry, readFields_errors]
  refine ⟨?_, herr, ?_⟩
  · intro name
    rw [recordEntry, readFields_attributes fl item (hmap item hmem)]
    by_cases hn : name = "series" ∨ name = "time" <;> simp [hn, List.lookup]
  · rw [herr, length_filterMap_eq_countP]

/-- The record with one unparseable field yields its entry with the valid `raw`
field, and one error. -/
theorem cache_query_best_effort_witness :
    (cacheWithBadField.Table.Query
        (DynamoDBCache.conditions sampleSeries (timeUnix 0) (timeUnix 10))
          = .ok [recordWithBadField] ∧
      ∀ item ∈ [recordWithBadField], (item.map Prod.fst).Nodup) ∧
    DynamoDBCache.Query wholeFloats cacheWithBadField sampleSeries (timeUnix 0) (timeUnix 10) =
      ⟨[⟨timeUnix 5, [("raw", 3)]⟩], [.numSyntax "abc"], false⟩ ∧
    ((DynamoDBCache.Query wholeFloats cacheWithBadField sampleSeries (timeUnix 0)
        (timeUnix 10)).entries.length = [recordWithBadField].length ∧
    (DynamoDBCache.Query wholeFloats cacheWithBadField sampleSeries (timeUnix 0)
        (timeUnix 10)).entries =
      [recordWithBadField].map (fun it => (recordEntry wholeFloats it).1) ∧
    (DynamoDBCache.Query wholeFloats cacheWithBadField sampleSeries (timeUnix 0)
        (timeUnix 10)).errors =
      [recordWithBadField].flatMap (fun it => (recordEntry wholeFloats it).2) ∧
    ∀ item ∈ [recordWithBadField],
      (∀ name, (recordEntry wholeFloats item).1.Attributes.lookup name =
        if name = "series" ∨ name = "time" then none
        else (item.lookup name).bind fun a => (wholeFloats.ParseFloat a.Value).toOption) ∧
      (recordEntry wholeFloats item).2 = item.filterMap (fieldError wholeFloats) ∧
      (recordEntry wholeFloats item).2.length =
        item.countP fun f => (fieldError wholeFloats f).isSome) :=
  have hscan : cacheWithBadField.Table.Query
      (DynamoDBCache.conditions sampleSeries (timeUnix 0) (timeUnix 10))
        = .ok [recordWithBadField] := by decide
  have hmap : ∀ item ∈ [recordWithBadField], (item.map Prod.fst).Nodup := by decide
  ⟨⟨hscan, hmap⟩, by decide,
    cache_query_best_effort wholeFloats cacheWithBadField sampleSeries (timeUnix 0)
      (timeUnix 10) [recordWithBadField] hscan hmap⟩

/-! ## What `Insert` writes, and reading it back -/

/-- Claim C9, as the code has it: `Insert` makes one `PutItem` call keyed by the
series text and the decimal unix second of the entry timestamp, with exactly
one column: the numeric column `raw` holding the `%v` text of the entry's `raw`
attribute (of the zero value when the entry has none). The error of the backend
is returned as is; on a working backend the table afterwards holds exactly one
record under that key, the one described. -/
theorem Insert_writes_raw_only {F : Type} (fl : Float64Ops F) (self : DynamoDBCache)
    (series : UUID) (entry : Entry F) :
    (insertRequest fl series entry).hashKey = series.String ∧
    (insertRequest fl series entry).rangeKey = formatInt entry.Timestamp.Unix ∧
    parseDecimal (insertRequest fl series entry).rangeKey =
      some (entry.Timestamp.unixNano / 1000000000) ∧
    (insertRequest fl series entry).attributes =
      [⟨"N", "raw", fl.format
        (match entry.Attributes.lookup "raw" with
          | some v => v
          | none => fl.zero)⟩] ∧
    DynamoDBCache.Insert fl self series entry =
      self.Table.PutItem (insertRequest fl series entry).hashKey
        (insertRequest fl series entry).rangeKey (insertRequest fl series entry).attributes ∧
    (∀ e, self.Table.fault = some e →
      DynamoDBCache.Insert fl self series entry = (self.Table, some e)) ∧
    (self.Table.fault = none →
      (DynamoDBCache.Insert fl self series entry).2 = none ∧
      (DynamoDBCache.Insert fl self series entry).1.items.filter
          (Table.hasKey (insertRequest fl series entry).hashKey
            (insertRequest fl series entry).rangeKey) =
        [Table.newItem (insertRequest fl series entry).hashKey
          (insertRequest fl series entry).rangeKey
          (insertRequest fl series entry).attributes]) := by
  refine ⟨rfl, rfl, parseDecimal_formatInt _, ?_, rfl, ?_, ?_⟩
  · simp only [insertRequest, mapGet]
    cases entry.Attributes.lookup "raw" <;> rfl
  · intro e he
    simp [DynamoDBCache.Insert, Table.PutItem, he]
  · intro hup
    exact ⟨by simp [DynamoDBCache.Insert, Table.PutItem, hup],
      PutItem_items_with_key _ _ _ _ hup⟩

/-- Claim C9 fails as stated: an entry with the attributes `raw` and `count` is
written as a record with the single column `raw`; no column `count` is
written. -/
theorem Insert_drops_other_attributes :
    (insertRequest wholeFloats sampleSeries ⟨timeUnix 5, [("raw", 1), ("count", 2)]⟩).attributes
      = [⟨"N", "raw", "1"⟩] ∧
    (Entry.Attributes (⟨timeUnix 5, [("raw", 1), ("count", 2)]⟩ : Entry Int)).length = 2 ∧
    ((DynamoDBCache.Insert wholeFloats ⟨emptyTable⟩ sampleSeries
        ⟨timeUnix 5, [("raw", 1), ("count", 2)]⟩).1.items.all
      fun item => (item.lookup "count").isNone) = true := by
  decide

/-- An item passes the conditions of the cache `Query` exactly when its `series`
attribute is the series text and its `time` attribute is a number `b` with
`start.Unix() ≤ b ≤ end.Unix()`. -/
theorem conditions_all_iff (series : UUID) (start stop : Time) (item : Item) :
    ((DynamoDBCache.conditions series start stop).all fun c => c.holds item) = true ↔
      (∃ s, item.lookup "series" = some s ∧ s.AttrType = TYPE_STRING ∧
        s.Value = series.String) ∧
      ∃ t b, item.lookup "time" = some t ∧ t.AttrType = TYPE_NUMBER ∧
        parseDecimal t.Value = some b ∧ start.Unix ≤ b ∧ b ≤ stop.Unix := by
  simp only [DynamoDBCache.conditions, List.all_cons, List.all_nil, Bool.and_true,
    Bool.and_eq_true, equalString_holds, greaterEqual_holds, lessEqual_holds]
  constructor
  · rintro ⟨hs, ⟨t, b, ht, hty, hb, hge⟩, ⟨t2, b2, ht2, _, hb2, hle⟩⟩
    rw [ht] at ht2
    cases ht2
    rw [hb] at hb2
    cases hb2
    exact ⟨hs, t, b, ht, hty, hb, hge, hle⟩
  · rintro ⟨hs, t, b, ht, hty, hb, hge, hle⟩
    exact ⟨hs, ⟨t, b, ht, hty, hb, hge⟩, ⟨t, b, ht, hty, hb, hle⟩⟩

/-- Claim C10: when printing a float and parsing the text gives the float back,
the backend works and the cache table is empty, then for an entry with a `raw`
attribute `v` and a range with `start ≤ timestamp ≤ end` in whole unix seconds
(as holds whenever it holds for the instants), `Insert` succeeds and
the following `Query` sends exactly one entry and no error; the entry has the
timestamp cut to whole seconds and the single attribute `raw` with value `v`. -/
theorem insert_then_query_returns_entry {F : Type} (fl : Float64Ops F)
    (hround : ∀ x, fl.ParseFloat (fl.format x) = .ok x)
    (series : UUID) (entry : Entry F) (v : F) (start stop : Time)
    (hraw : entry.Attributes.lookup "raw" = some v)
    (h64 : inInt64 entry.Timestamp.Unix)
    (hlo : start.Unix ≤ entry.Timestamp.Unix)
    (hhi : entry.Timestamp.Unix ≤ stop.Unix) :
    (DynamoDBCache.Insert fl ⟨⟨[], none⟩⟩ series entry).2 = none ∧
    DynamoDBCache.Query fl ⟨(DynamoDBCache.Insert fl ⟨⟨[], none⟩⟩ series entry).1⟩
        series start stop =
      ⟨[⟨⟨entry.Timestamp.unixNano / 1000000000 * 1000000000⟩, [("raw", v)]⟩], [], false⟩ := by
  have hsel : ((DynamoDBCache.conditions series start stop).all fun c =>
      c.holds (Table.newItem series.String (formatInt entry.Timestamp.Unix)
        [⟨"N", "raw", fl.format v⟩])) = true := by
    rw [conditions_all_iff]
    refine ⟨⟨⟨TYPE_STRING, "series", series.String⟩, by simp [Table.newItem, List.lookup],
      rfl, rfl⟩, ⟨TYPE_NUMBER, "time", formatInt entry.Timestamp.Unix⟩, entry.Timestamp.Unix,
      by simp [Table.newItem, List.lookup], rfl, parseDecimal_formatInt _, hlo, hhi⟩
  have hts : ¬ ("time" = "series") := by decide
  have hrs : ¬ ("raw" = "series") := by decide
  have hrt : ¬ ("raw" = "time") := by decide
  refine ⟨by simp [DynamoDBCache.Insert, Table.PutItem], ?_⟩
  simp only [DynamoDBCache.Insert, Table.PutItem, insertRequest, mapGet, hraw, Option.getD_some,
    DynamoDBCache.Query, Table.Query, List.filter_nil, List.nil_append, List.filter_cons, hsel,
    ite_true]
  simp only [DynamoDBCache.emitItems, recordEntry, Table.newItem, List.map_cons, List.map_nil,
    readFields, hts, hrs, hrt, ite_false, ite_true, ParseInt_formatInt _ h64, hround, mapSet,
    List.append_nil, timeUnix]
  rfl

/-- The round trip on the entry at 5.25 s with `raw = 3`, queried over
`[0 s, 10 s]`. -/
theorem insert_then_query_returns_entry_witness :
    ((∀ x, wholeFloats.ParseFloat (wholeFloats.format x) = .ok x) ∧
      (Entry.Attributes (⟨⟨5250000000⟩, [("raw", 3)]⟩ : Entry Int)).lookup "raw" = some 3 ∧
      inInt64 (Time.mk 5250000000).Unix ∧
      (timeUnix 0).Unix ≤ (Time.mk 5250000000).Unix ∧
      (Time.mk 5250000000).Unix ≤ (timeUnix 10).Unix) ∧
    (DynamoDBCache.Insert wholeFloats ⟨⟨[], none⟩⟩ sampleSeries
        ⟨⟨5250000000⟩, [("raw", 3)]⟩).2 = none ∧
    DynamoDBCache.Query wholeFloats
        ⟨(DynamoDBCache.Insert wholeFloats ⟨⟨[], none⟩⟩ sampleSeries
          ⟨⟨5250000000⟩, [("raw", 3)]⟩).1⟩ sampleSeries (timeUnix 0) (timeUnix 10) =
      ⟨[⟨⟨5250000000 / 1000000000 * 1000000000⟩, [("raw", 3)]⟩], [], false⟩ :=
  have hround : ∀ x, wholeFloats.ParseFloat (wholeFloats.format x) = .ok x := by
    intro x
    simp [wholeFloats, parseDecimal_formatInt]
  ⟨⟨hround, by decide, by decide, by decide, by decide⟩,
    insert_then_query_returns_entry wholeFloats hround sampleSeries
      ⟨⟨5250000000⟩, [("raw", 3)]⟩ 3 (timeUnix 0) (timeUnix 10) (by decide) (by decide)
      (by decide) (by decide)⟩

/-! ## The emission loop of the repository `Query` -/

theorem readLoop_mono {F : Type} (reader : EntryReader F) (fuel k : Nat)
    (es : List (Entry F)) (h : readLoop reader fuel k = some es) (n : Nat) :
    readLoop reader (fuel + n) k = some es := by
  induction fuel generalizing k es with
  | zero => simp [readLoop] at h
  | succ fuel ih =>
    rw [Nat.add_right_comm]
    unfold readLoop at h ⊢
    by_cases herr : (reader k).err.isSome = true
    · simpa [herr] using h
    · simp only [herr, Bool.false_eq_true, ite_false] at h ⊢
      cases hrec : readLoop reader fuel (k + 1) with
      | none => simp [hrec] at h
      | some more =>
        rw [ih (k + 1) more hrec]
        simpa [hrec] using h

theorem emitItems_mono {F : Type} (self : DynamoDBRepository F) (mk : ReaderMaker F)
    (timeAttribute : String) (fuel : Nat) (series : UUID) (attributes : List String)
    (items : List Item) (out : QueryOutput F)
    (h : self.emitItems mk timeAttribute fuel series attributes items = some out) (n : Nat) :
    self.emitItems mk timeAttribute (fuel + n) series attributes items = some out := by
  induction items generalizing out with
  | nil => simpa [DynamoDBRepository.emitItems] using h
  | cons item rest ih =>
    unfold DynamoDBRepository.emitItems at h ⊢
    cases hb : self.entryReader mk timeAttribute series item attributes with
    | nilDeref => simpa [hb] using h
    | failed e => simpa [hb] using h
    | ok reader =>
      simp only [hb] at h ⊢
      cases hl : readLoop reader fuel 0 with
      | none => simp [hl] at h
      | some sent =>
        simp only [hl] at h
        rw [readLoop_mono reader fuel 0 sent hl n]
        cases hr : self.emitItems mk timeAttribute fuel series attributes rest with
        | none => simp [hr] at h
        | some o =>
          rw [ih o hr]
          simpa [hr] using h

theorem Query_mono {F : Type} (self : DynamoDBRepository F) (mk : ReaderMaker F)
    (timeAttribute : String) (fuel : Nat) (series : UUID) (start stop : Time)
    (attributes : List String) (out : QueryOutput F)
    (h : self.Query mk timeAttribute fuel series start stop attributes = some out) (n : Nat) :
    self.Query mk timeAttribute (fuel + n) series start stop attributes = some out := by
  unfold DynamoDBRepository.Query at h ⊢
  cases hq : self.Table.Query (self.comparisons series start stop) with
  | error e => simpa [hq] using h
  | ok items =>
    simp only [hq] at h ⊢
    exact emitItems_mono self mk timeAttribute fuel series attributes items out h n

theorem readLoop_of_stops {F : Type} (reader : EntryReader F) (fuel k : Nat)
    (h : ∃ j, k ≤ j ∧ j < k + fuel ∧ (reader j).err.isSome = true) :
    ∃ es, readLoop reader fuel k = some es ∧ ∀ e ∈ es, ∃ j, e ∈ (reader j).entries := by
  induction fuel generalizing k with
  | zero =>
    obtain ⟨j, h1, h2, _⟩ := h
    omega
  | succ fuel ih =>
    unfold readLoop
    by_cases herr : (reader k).err.isSome = true
    · exact ⟨(reader k).entries, by simp [herr], fun e he => ⟨k, he⟩⟩
    · obtain ⟨j, h1, h2, h3⟩ := h
      have hjk : j ≠ k := by
        rintro rfl
        exact herr h3
      obtain ⟨more, hm, hmem⟩ := ih (k + 1) ⟨j, by omega, by omega, h3⟩
      refine ⟨(reader k).entries ++ more, by simp [herr, hm], ?_⟩
      intro e he
      rcases List.mem_append.mp he with he | he
      · exact ⟨k, he⟩
      · exact hmem e he

theorem emitItems_of_stops {F : Type} (self : DynamoDBRepository F) (mk : ReaderMaker F)
    (timeAttribute : String) (fuel : Nat) (series : UUID) (attributes : List String)
    (items : List Item)
    (hstop : ∀ item ∈ items, ∀ reader,
      self.entryReader mk timeAttribute series item attributes = .ok reader →
        readerStops reader fuel) :
    ∃ out, self.emitItems mk timeAttribute fuel series attributes items = some out ∧
      ∀ e ∈ out.entries, ∃ item ∈ items, ∃ reader k,
        self.entryReader mk timeAttribute series item attributes = .ok reader ∧
          e ∈ (reader k).entries := by
  induction items with
  | nil => exact ⟨⟨[], [], false⟩, rfl, by simp⟩
  | cons item rest ih =>
    unfold DynamoDBRepository.emitItems
    cases hb : self.entryReader mk timeAttribute series item attributes with
    | nilDeref => exact ⟨⟨[], [], true⟩, rfl, by simp⟩
    | failed err => exact ⟨⟨[], [err], false⟩, rfl, by simp⟩
    | ok reader =>
      obtain ⟨j, hj, hje⟩ := hstop item (List.mem_cons_self _ _) reader hb
      obtain ⟨sent, hsent, hfrom⟩ := readLoop_of_stops reader fuel 0 ⟨j, by omega, by omega, hje⟩
      obtain ⟨o, ho, hrest⟩ := ih fun it hit r hr => hstop it (List.mem_cons_of_mem _ hit) r hr
      refine ⟨⟨sent ++ o.entries, o.errors, o.crashed⟩, by simp [hsent, ho], ?_⟩
      intro e he
      rcases List.mem_append.mp he with he | he
      · obtain ⟨k, hk⟩ := hfrom e he
        exact ⟨item, List.mem_cons_self _ _, reader, k, hb, hk⟩
      · obtain ⟨it, hit, r, k, hr, hk⟩ := hrest e he
        exact ⟨it, List.mem_cons_of_mem _ hit, r, k, hr, hk⟩

/-- The buckets that follow a bucket whose reader cannot be built have no effect
on what the loop sends. -/
theorem emitItems_after_failure {F : Type} (self : DynamoDBRepository F) (mk : ReaderMaker F)
    (timeAttribute : String) (fuel : Nat) (series : UUID) (attributes : List String)
    (before after : List Item) (bad : Item) (err : Error)
    (hbad : self.entryReader mk timeAttribute series bad attributes = .failed err) :
    self.emitItems mk timeAttribute fuel series attributes (before ++ bad :: after) =
      self.emitItems mk timeAttribute fuel series attributes (before ++ [bad]) := by
  induction before with
  | nil => simp [DynamoDBRepository.emitItems, hbad]
  | cons item rest ih =>
    simp only [List.cons_append]
    unfold DynamoDBRepository.emitItems
    rw [ih]

/-- Every error the loop sends is the failure of building a reader, and at most
one is sent: what `ReadEntries` returns never reaches the errors channel. -/
theorem emitItems_errors {F : Type} (self : DynamoDBRepository F) (mk : ReaderMaker F)
    (timeAttribute : String) (fuel : Nat) (series : UUID) (attributes : List String)
    (items : List Item) (out : QueryOutput F)
    (h : self.emitItems mk timeAttribute fuel series attributes items = some out) :
    out.errors.length ≤ 1 ∧ ∀ e ∈ out.errors, ∃ item ∈ items,
      self.entryReader mk timeAttribute series item attributes = .failed e := by
  induction items generalizing out with
  | nil =>
    simp only [DynamoDBRepository.emitItems, Option.some.injEq] at h
    subst h
    simp
  | cons item rest ih =>
    unfold DynamoDBRepository.emitItems at h
    cases hb : self.entryReader mk timeAttribute series item attributes with
    | nilDeref =>
      simp only [hb, Option.some.injEq] at h
      subst h
      simp
    | failed err =>
      simp only [hb, Option.some.injEq] at h
      subst h
      simp [hb]
    | ok reader =>
      simp only [hb] at h
      cases hl : readLoop reader fuel 0 with
      | none => simp [hl] at h
      | some sent =>
        cases hr : self.emitItems mk timeAttribute fuel series attributes rest with
        | none => simp [hl, hr] at h
        | some o =>
          simp only [hl, hr, Option.map_some', Option.some.injEq] at h
          subst h
          obtain ⟨hlen, hmem⟩ := ih o hr
          refine ⟨hlen, fun e he => ?_⟩
          obtain ⟨it, hit, hfail⟩ := hmem e he
          exact ⟨it, List.mem_cons_of_mem _ hit, hfail⟩

theorem timeUnix_Unix (sec : Int) : (timeUnix sec).Unix = sec := by
  simp only [timeUnix, Time.Unix]
  omega

theorem byteColumnReader_anchor (timeAttribute : String) (series : UUID) (multiplier : Int)
    (decs : List (String × BucketDecoder)) (attributes : List String) (tdec : BucketDecoder)
    (h : decs.lookup timeAttribute = some tdec) (k : Nat) (e : Entry Int)
    (he : e ∈ (byteColumnReader timeAttribute series multiplier decs attributes k).entries) :
    tdec.start ≤ e.Timestamp.Unix := by
  unfold byteColumnReader at he
  simp only [h] at he
  cases hk : tdec.data[k]? with
  | none => simp [hk] at he
  | some off =>
    simp only [hk, List.mem_singleton] at he
    rw [he]
    simp only [timeUnix_Unix]
    omega

/-- Claim C3, as the code has it: when every reader built for a stored bucket
returns an error within `fuel` calls, `Query` returns, and every entry it sent
was filled by the reader of a stored bucket whose start `b` satisfies
`start.Unix() ≤ b < end.Unix()`; when moreover readers fill only timestamps at
or after the start of their bucket, every entry sent has
`start.Unix() ≤ t.Unix()`. The timestamp is not compared with `end`. -/
theorem query_entries_come_from_selected_buckets {F : Type} (self : DynamoDBRepository F)
    (mk : ReaderMaker F) (timeAttribute : String) (fuel : Nat) (series : UUID)
    (start stop : Time) (attributes : List String)
    (hstop : ∀ item ∈ self.Table.items, ∀ reader,
      self.entryReader mk timeAttribute series item attributes = .ok reader →
        readerStops reader fuel)
    (hanchor : ∀ item ∈ self.Table.items, ∀ reader tm b,
      self.entryReader mk timeAttribute series item attributes = .ok reader →
      item.lookup "time" = some tm → parseDecimal tm.Value = some b →
        ∀ k, ∀ e ∈ (reader k).entries, b ≤ e.Timestamp.Unix) :
    ∃ out, self.Query mk timeAttribute fuel series start stop attributes = some out ∧
      ∀ e ∈ out.entries, start.Unix ≤ e.Timestamp.Unix ∧
        ∃ item ∈ self.Table.items, ∃ tm b reader k,
          item.lookup "time" = some tm ∧ parseDecimal tm.Value = some b ∧
          start.Unix ≤ b ∧ b < stop.Unix ∧
          self.entryReader mk timeAttribute series item attributes = .ok reader ∧
          e ∈ (reader k).entries := by
  unfold DynamoDBRepository.Query Table.Query
  cases hf : self.Table.fault with
  | some err => exact ⟨⟨[], [err], false⟩, rfl, by simp⟩
  | none =>
    simp only
    obtain ⟨out, hout, hfrom⟩ := emitItems_of_stops self mk timeAttribute fuel series attributes
      (self.Table.items.filter fun it => (self.comparisons series start stop).all
        fun c => c.holds it)
      (fun it hit r hr => hstop it (List.mem_of_mem_filter hit) r hr)
    refine ⟨out, hout, ?_⟩
    intro e he
    obtain ⟨item, hitem, reader, k, hr, hk⟩ := hfrom e he
    rw [List.mem_filter, comparisons_all_iff] at hitem
    obtain ⟨hmem, _, tm, b, htm, _, hb, hlo, hhi⟩ := hitem
    have hge := hanchor item hmem reader tm b hr htm hb k e hk
    exact ⟨by omega, item, hmem, tm, b, reader, k, htm, hb, hlo, hhi, hr, hk⟩

/-- Claim C3 fails as stated, at both ends of the range. The bucket starting at
second 0 holds a sample at 240 s, and `Query` over `[0 s, 180 s)` sends it; and
`Query` over `[0.5 s, 180 s)` sends the sample at 0 s. -/
theorem query_sends_entries_outside_range :
    ((unitRepo tableWithLateSample).Query (byteColumnReader "times") "times" 5 sampleSeries
        (timeUnix 0) (timeUnix 180) ["raw"] =
      some ⟨[⟨timeUnix 0, [("raw", 1)]⟩, ⟨timeUnix 60, [("raw", 2)]⟩,
        ⟨timeUnix 120, [("raw", 3)]⟩, ⟨timeUnix 240, [("raw", 4)]⟩], [], false⟩ ∧
      ¬ (timeUnix 240).unixNano < (timeUnix 180).unixNano) ∧
    ((unitRepo tableWithLateSample).Query (byteColumnReader "times") "times" 5 sampleSeries
        ⟨500000000⟩ (timeUnix 180) ["raw"] =
      some ⟨[⟨timeUnix 0, [("raw", 1)]⟩, ⟨timeUnix 60, [("raw", 2)]⟩,
        ⟨timeUnix 120, [("raw", 3)]⟩, ⟨timeUnix 240, [("raw", 4)]⟩], [], false⟩ ∧
      ¬ (Time.mk 500000000).unixNano ≤ (timeUnix 0).unixNano) := by
  decide

theorem entryReader_lateSample (item : Item) (hitem : item ∈ tableWithLateSample.items) :
    (unitRepo tableWithLateSample).entryReader (byteColumnReader "times") "times" sampleSeries
        item ["raw"] =
      .ok (byteColumnReader "times" sampleSeries 1
        [("times", ⟨0, [byteOf 0, byteOf 60, byteOf 120, byteOf 240]⟩),
         ("raw", ⟨0, [byteOf 1, byteOf 2, byteOf 3, byteOf 4]⟩)] ["raw"]) := by
  simp only [tableWithLateSample, List.mem_singleton] at hitem
  subst hitem
  rfl

/-- The provenance statement on the bucket with samples at 0 s, 60 s, 120 s
and 240 s, queried over `[0 s, 180 s)` with five calls allowed per bucket. -/
theorem query_entries_come_from_selected_buckets_witness :
    ∃ out, (unitRepo tableWithLateSample).Query (byteColumnReader "times") "times" 5
        sampleSeries (timeUnix 0) (timeUnix 180) ["raw"] = some out ∧
      ∀ e ∈ out.entries, (timeUnix 0).Unix ≤ e.Timestamp.Unix ∧
        ∃ item ∈ (unitRepo tableWithLateSample).Table.items, ∃ tm b reader k,
          item.lookup "time" = some tm ∧ parseDecimal tm.Value = some b ∧
          (timeUnix 0).Unix ≤ b ∧ b < (timeUnix 180).Unix ∧
          (unitRepo tableWithLateSample).entryReader (byteColumnReader "times") "times"
            sampleSeries item ["raw"] = .ok reader ∧
          e ∈ (reader k).entries :=
  query_entries_come_from_selected_buckets (unitRepo tableWithLateSample)
    (byteColumnReader "times") "times" 5 sampleSeries (timeUnix 0) (timeUnix 180) ["raw"]
    (by
      intro item hitem reader hr
      rw [entryReader_lateSample item hitem] at hr
      cases hr
      exact ⟨4, by decide, by decide⟩)
    (by
      intro item hitem reader tm b hr htm hb k e he
      rw [entryReader_lateSample item hitem] at hr
      cases hr
      have hz := byteColumnReader_anchor "times" sampleSeries 1 _ ["raw"]
        ⟨0, [byteOf 0, byteOf 60, byteOf 120, byteOf 240]⟩ (by decide) k e he
      simp only [unitRepo, tableWithLateSample, List.mem_singleton] at hitem
      subst hitem
      have hb0 : b = 0 := by
        have h1 : tm = ⟨"N", "time", "0"⟩ := by
          have : List.lookup "time" (bucketItem "0"
              (EncodeToString [byteOf 0, byteOf 60, byteOf 120, byteOf 240])
              (EncodeToString [byteOf 1, byteOf 2, byteOf 3, byteOf 4])) =
              some ⟨"N", "time", "0"⟩ := by decide
          rw [this] at htm
          exact (Option.some.inj htm).symm
        rw [h1] at hb
        have h2 : parseDecimal "0" = some 0 := by decide
        rw [h2] at hb
        exact (Option.some.inj hb).symm
      rw [hb0]
      exact hz)

/-! ## Where `Query` departs from the error contract -/

/-- Claim C1 on the code: of three scanned buckets whose second has a time
column that is not base64 text, `Query` sends the two entries of the first
bucket and one error, and nothing of the third bucket (its entries at 1200 s
and 1260 s), however many reads are allowed per bucket. -/
theorem query_abandons_buckets_after_corrupt_one (extra : Nat) :
    (unitRepo tableWithCorruptBucket).Query (byteColumnReader "times") "times" (3 + extra)
        sampleSeries (timeUnix 0) (timeUnix 1800) ["raw"] =
      some ⟨[⟨timeUnix 0, [("raw", 1)]⟩, ⟨timeUnix 60, [("raw", 2)]⟩], [.corruptInput], false⟩ :=
  Query_mono _ _ _ 3 _ _ _ _ _ (by decide) extra

/-- Claim C5 on the code: a bucket whose reader fills one entry and then reports
a decoding failure that is not end-of-data makes `Query` send that entry and no
error at all, however many reads are allowed per bucket. -/
theorem query_swallows_read_error (extra : Nat) :
    (truncatedColumnReader sampleSeries 1 [] ["raw"] 1).err =
      some (.decode "unexpected end of column") ∧
    (unitRepo tableWithLateSample).Query truncatedColumnReader "times" (2 + extra)
        sampleSeries (timeUnix 0) (timeUnix 180) ["raw"] =
      some ⟨[⟨timeUnix 0, [("raw", 1)]⟩], [], false⟩ :=
  ⟨by decide, Query_mono _ _ _ 2 _ _ _ _ _ (by decide) extra⟩

/-- Claim C2 fails as stated: with bucket duration 600 s the stored bucket that
starts at second 0 has a window meeting the range `[60 s, 180 s)`, and the scan
of `Query` over that range returns nothing. -/
theorem scan_misses_bucket_starting_before_range :
    (0 : Int) < (Duration.mk 600000000000).ns ∧
    (timeUnix 60).unixNano < (timeUnix 180).unixNano ∧
    tableWithBucketAtZero.items =
      [Table.newItem (hashKey sampleSeries ⟨60000000000⟩) "0"
        [⟨TYPE_BINARY, "raw", "AQID"⟩]] ∧
    windowMeets 0 ⟨600000000000⟩ (timeUnix 60) (timeUnix 180) ∧
    tableWithBucketAtZero.Query
      ((minuteRepo tableWithBucketAtZero).comparisons sampleSeries (timeUnix 60) (timeUnix 180))
        = .ok [] := by
  decide

/-- The scan characterisation applied to the range `[0 s, 180 s)` on the table
holding the bucket that starts at second 0. -/
theorem scan_selects_by_bucket_start_witness :
    (1000000000 : Int) ≤ (Duration.mk 600000000000).ns ∧
    (minuteRepo tableWithBucketAtZero).Table.fault = none ∧
    ∃ items, (minuteRepo tableWithBucketAtZero).Table.Query
        ((minuteRepo tableWithBucketAtZero).comparisons sampleSeries (timeUnix 0) (timeUnix 180))
          = .ok items ∧
      (∀ item, item ∈ items ↔ item ∈ (minuteRepo tableWithBucketAtZero).Table.items ∧
        (∃ s, item.lookup "series" = some s ∧ s.AttrType = TYPE_STRING ∧
          s.Value = hashKey sampleSeries (minuteRepo tableWithBucketAtZero).Granularity) ∧
        ∃ t b, item.lookup "time" = some t ∧ t.AttrType = TYPE_NUMBER ∧
          parseDecimal t.Value = some b ∧ (timeUnix 0).Unix ≤ b ∧ b < (timeUnix 180).Unix) ∧
      ∀ item ∈ items, ∃ t b, item.lookup "time" = some t ∧ parseDecimal t.Value = some b ∧
        windowMeets b ⟨600000000000⟩ (timeUnix 0) (timeUnix 180) :=
  ⟨by decide, by decide,
    scan_selects_by_bucket_start (minuteRepo tableWithBucketAtZero) sampleSeries (timeUnix 0)
      (timeUnix 180) ⟨600000000000⟩ (by decide) (by decide)⟩

/-- Claim C4 fails as stated, in two ways. A bucket put at granularity 1 s
through a repository whose own granularity is 60 s is not returned by the scan
over `[0 s, 10 s)`, although its start 0 s lies in the range; and a bucket put at
10 s is not returned by the scan over `[10 s, 10.5 s)`, although
`10 s ≤ 10 s < 10.5 s`. -/
theorem put_then_scan_can_miss :
    ((timeUnix 0).unixNano ≤ (timeUnix 0).unixNano ∧
      (timeUnix 0).unixNano < (timeUnix 10).unixNano ∧
      ((minuteRepo emptyTable).Put sampleSeries ⟨1000000000⟩ (timeUnix 0) []).2 = none ∧
      ((minuteRepo emptyTable).Put sampleSeries ⟨1000000000⟩ (timeUnix 0) []).1.Query
        ((minuteRepo emptyTable).comparisons sampleSeries (timeUnix 0) (timeUnix 10)) = .ok []) ∧
    ((timeUnix 10).unixNano ≤ (timeUnix 10).unixNano ∧
      (timeUnix 10).unixNano < (Time.mk 10500000000).unixNano ∧
      ((minuteRepo emptyTable).Put sampleSeries ⟨60000000000⟩ (timeUnix 10) []).2 = none ∧
      ((minuteRepo emptyTable).Put sampleSeries ⟨60000000000⟩ (timeUnix 10) []).1.Query
        ((minuteRepo emptyTable).comparisons sampleSeries (timeUnix 10) (Time.mk 10500000000))
          = .ok []) := by
  decide

/-- The bucket put at second 0 is returned by the scan over `[0 s, 180 s)`. -/
theorem put_then_scan_finds_witness :
    (minuteRepo emptyTable).Table.fault = none ∧
    (Duration.mk 60000000000).wholeSeconds = (minuteRepo emptyTable).Granularity.wholeSeconds ∧
    (timeUnix 0).Unix ≤ (timeUnix 0).Unix ∧ (timeUnix 0).Unix < (timeUnix 180).Unix ∧
    ((minuteRepo emptyTable).Put sampleSeries ⟨60000000000⟩ (timeUnix 0) []).2 = none ∧
    ∃ items,
      ((minuteRepo emptyTable).Put sampleSeries ⟨60000000000⟩ (timeUnix 0) []).1.Query
        ((minuteRepo emptyTable).comparisons sampleSeries (timeUnix 0) (timeUnix 180))
          = .ok items ∧
      Table.newItem (putRequest sampleSeries ⟨60000000000⟩ (timeUnix 0) []).hashKey
        (putRequest sampleSeries ⟨60000000000⟩ (timeUnix 0) []).rangeKey
        (putRequest sampleSeries ⟨60000000000⟩ (timeUnix 0) []).attributes ∈ items :=
  ⟨by decide, by decide, by decide, by decide,
    put_then_scan_finds (minuteRepo emptyTable) sampleSeries ⟨60000000000⟩ (timeUnix 0) []
      (timeUnix 0) (timeUnix 180) (by decide) (by decide) (by decide) (by decide)⟩

/-- Claim C6 fails as stated: granularities of 1 s and 1.5 s differ, yet `Put`
builds the same partition key for them. -/
theorem hashKey_shared_by_second_and_second_and_a_half :
    (Duration.mk 1000000000) ≠ (Duration.mk 1500000000) ∧
    (putRequest sampleSeries ⟨1000000000⟩ (timeUnix 0) []).hashKey =
      (putRequest sampleSeries ⟨1500000000⟩ (timeUnix 0) []).hashKey := by
  decide

/-- The key characterisation applied to one series at 60 s and at 60.5 s. -/
theorem hashKey_eq_iff_witness :
    sampleSeries.bytes.length = 16 ∧
    ((putRequest sampleSeries ⟨60000000000⟩ (timeUnix 0) []).hashKey =
        (putRequest sampleSeries ⟨60500000000⟩ (timeUnix 0) []).hashKey ↔
      sampleSeries = sampleSeries ∧
        (Duration.mk 60000000000).wholeSeconds = (Duration.mk 60500000000).wholeSeconds) :=
  ⟨by decide, hashKey_eq_iff sampleSeries sampleSeries ⟨60000000000⟩ ⟨60500000000⟩
    (timeUnix 0) (timeUnix 0) [] [] (by decide) (by decide)⟩

/-- The description of `Put` on the bucket starting at second 0 with one `raw`
column, put into the empty table: the request and the stored item. -/
theorem Put_writes_one_item_witness :
    putRequest sampleSeries ⟨60000000000⟩ (timeUnix 0) [⟨"raw", [byteOf 1, byteOf 2, byteOf 3]⟩] =
      ⟨"00010203-0405-0607-0809-0a0b0c0d0e0f|60", "0", [⟨"B", "raw", "AQID"⟩]⟩ ∧
    (minuteRepo emptyTable).Put sampleSeries ⟨60000000000⟩ (timeUnix 0)
        [⟨"raw", [byteOf 1, byteOf 2, byteOf 3]⟩] =
      (⟨[[("series", ⟨"S", "series", "00010203-0405-0607-0809-0a0b0c0d0e0f|60"⟩),
          ("time", ⟨"N", "time", "0"⟩), ("raw", ⟨"B", "raw", "AQID"⟩)]], none⟩, none) ∧
    (minuteRepo ⟨[], some (.backend "throttled")⟩).Put sampleSeries ⟨60000000000⟩ (timeUnix 0)
        [⟨"raw", [byteOf 1, byteOf 2, byteOf 3]⟩] =
      (⟨[], some (.backend "throttled")⟩, some (.backend "throttled")) ∧
    parseDecimal (putRequest sampleSeries ⟨60000000000⟩ (timeUnix 0)
        [⟨"raw", [byteOf 1, byteOf 2, byteOf 3]⟩]).rangeKey = some (timeUnix 0).Unix :=
  ⟨by decide, by decide, by decide,
    (Put_writes_one_item (minuteRepo emptyTable) sampleSeries ⟨60000000000⟩ (timeUnix 0)
      [⟨"raw", [byteOf 1, byteOf 2, byteOf 3]⟩]).2.2.2.1⟩

/-- The description of `Insert` on the entry at 5 s with `raw = 3`, inserted
into the empty table: the request and the stored record. -/
theorem Insert_writes_raw_only_witness :
    insertRequest wholeFloats sampleSeries ⟨timeUnix 5, [("raw", 3)]⟩ =
      ⟨"00010203-0405-0607-0809-0a0b0c0d0e0f", "5", [⟨"N", "raw", "3"⟩]⟩ ∧
    DynamoDBCache.Insert wholeFloats ⟨emptyTable⟩ sampleSeries ⟨timeUnix 5, [("raw", 3)]⟩ =
      (⟨[[("series", ⟨"S", "series", "00010203-0405-0607-0809-0a0b0c0d0e0f"⟩),
          ("time", ⟨"N", "time", "5"⟩), ("raw", ⟨"N", "raw", "3"⟩)]], none⟩, none) ∧
    (insertRequest wholeFloats sampleSeries ⟨timeUnix 5, [("raw", 3)]⟩).attributes =
      [⟨"N", "raw", wholeFloats.format
        (match (Entry.Attributes (⟨timeUnix 5, [("raw", 3)]⟩ : Entry Int)).lookup "raw" with
          | some v => v
          | none => wholeFloats.zero)⟩] :=
  ⟨by decide, by decide,
    (Insert_writes_raw_only wholeFloats ⟨emptyTable⟩ sampleSeries
      ⟨timeUnix 5, [("raw", 3)]⟩).2.2.2.1⟩

end Timedb
